import Mathlib

/-
Verification of the Yjs WebSocket relay server
(`src/yjs-websocket-server.ts`, with the earlier immediate-broadcast
variant kept for a refinement comparison).

The embedding models the server as pure functions over an explicit
`ServerState`.  Byte strings are `List Nat`; connections are numeric
identifiers; the wire readyState of each connection is an environment
function `ConnId → Bool` (`true` means readyState === 1, i.e. OPEN).
JavaScript `Map`s are association lists that preserve insertion order,
exactly as the iteration order of `Map.forEach`; `Set`s are
insertion-ordered duplicate-free lists.
-/

namespace Yjs

abbrev Bytes := List Nat
abbrev ConnId := Nat
abbrev RoomId := List Char

/-! ## lib0 variable-length integer codec

`lib0/encoding.writeVarUint` emits 7 data bits per byte, least
significant group first, setting the high bit on every byte except the
last.  `lib0/decoding.readVarUint` accumulates the groups with a running
multiplier and fails (throws) when the input ends inside a number. -/

/-- lib0 `encoding.writeVarUint` loop body: 7-bit groups, continuation
bit 0x80.  `fuel` bounds the iteration count of the source's `while`
loop; `fuel = n` always suffices because `n / 128 < n`. -/
def writeVarUintGo : Nat → Nat → Bytes
  | 0, n => [n % 128]
  | fuel + 1, n =>
    if n > 127 then (128 + n % 128) :: writeVarUintGo fuel (n / 128) else [n]

/-- lib0 `encoding.writeVarUint`. -/
def writeVarUint (n : Nat) : Bytes := writeVarUintGo n n

/-- lib0 `decoding.readVarUint` accumulator loop: `acc` is the value read
so far, `mult` the multiplier of the next 7-bit group. -/
def readVarUintAux : Bytes → Nat → Nat → Option (Nat × Bytes)
  | [], _, _ => none
  | b :: rest, acc, mult =>
    let acc2 := acc + (b % 128) * mult
    if b < 128 then some (acc2, rest) else readVarUintAux rest acc2 (mult * 128)

/-- lib0 `decoding.readVarUint`; `none` models the thrown decode error. -/
def readVarUint (l : Bytes) : Option (Nat × Bytes) := readVarUintAux l 0 1

/-- lib0 `decoding.readVarUint8Array`: a varuint length followed by that
many payload bytes; reading past the end of the buffer throws. -/
def readVarUint8Array (l : Bytes) : Option (Bytes × Bytes) :=
  match readVarUint l with
  | none => none
  | some (len, rest) =>
    if len ≤ rest.length then some (rest.take len, rest.drop len) else none

/-- lib0 `encoding.writeVarUint8Array`: length prefix then raw bytes. -/
def writeVarUint8Array (b : Bytes) : Bytes := writeVarUint b.length ++ b

theorem readVarUintAux_writeVarUintGo :
    ∀ fuel n, n ≤ fuel → ∀ acc mult rest,
      readVarUintAux (writeVarUintGo fuel n ++ rest) acc mult =
        some (acc + n * mult, rest) := by
  intro fuel
  induction fuel with
  | zero =>
    intro n hn acc mult rest
    obtain rfl : n = 0 := Nat.le_zero.mp hn
    simp [writeVarUintGo, readVarUintAux]
  | succ fuel ih =>
    intro n hn acc mult rest
    by_cases h : n > 127
    · simp only [writeVarUintGo, h, if_true, List.cons_append]
      unfold readVarUintAux
      have hge : ¬ (128 + n % 128 < 128) := by omega
      simp only [hge, if_false]
      rw [ih (n / 128) (by omega)]
      have hmod : (128 + n % 128) % 128 = n % 128 := by omega
      rw [hmod]
      have key : n % 128 * mult + n / 128 * (mult * 128) = n * mult := by
        conv_rhs => rw [← Nat.div_add_mod n 128]
        ring
      congr 2
      omega
    · simp only [writeVarUintGo, h, if_false, List.cons_append, List.nil_append]
      unfold readVarUintAux
      have hlt : n < 128 := by omega
      simp only [hlt, if_true, Nat.mod_eq_of_lt hlt]

theorem readVarUint_writeVarUint (n : Nat) (rest : Bytes) :
    readVarUint (writeVarUint n ++ rest) = some (n, rest) := by
  unfold readVarUint writeVarUint
  rw [readVarUintAux_writeVarUintGo n n (Nat.le_refl n)]
  simp

theorem readVarUint8Array_writeVarUint8Array (b rest : Bytes) :
    readVarUint8Array (writeVarUint8Array b ++ rest) = some (b, rest) := by
  unfold readVarUint8Array writeVarUint8Array
  rw [List.append_assoc, readVarUint_writeVarUint]
  simp [List.take_left, List.drop_left]

/-! ## The opaque document engine

The spec (§1, §6) treats the CRDT merge algorithm as an external black
box reached through `applyUpdate` / `encodeStateVector` /
`encodeStateAsUpdate`.  Modelled from the spec: a document is the list
of updates merged into it so far; the fingerprint and diff are opaque
deterministic byte functions of the document; engine calls on malformed
(here: empty) byte payloads throw, which the `Except` results model. -/

structure YDoc where
  updates : List Bytes
deriving DecidableEq

def YDoc.empty : YDoc := ⟨[]⟩

/-- Modelled from the spec: `computeFingerprint` of the opaque engine
(`Y.encodeStateVector`), an opaque deterministic byte string. -/
def encodeStateVector (d : YDoc) : Bytes := writeVarUint d.updates.length

/-- Modelled from the spec: `computeDiff` of the opaque engine
(`Y.encodeStateAsUpdate` against a remote fingerprint). -/
def encodeStateAsUpdate (d : YDoc) (sv : Bytes) : Bytes :=
  d.updates.foldr (fun u acc => u ++ acc) []

/-- `computeDiff` as called by `syncProtocol.writeSyncStep2`: decoding a
malformed (empty) remote fingerprint throws. -/
def encodeStateAsUpdateE (d : YDoc) (sv : Bytes) : Except Unit Bytes :=
  if sv.isEmpty then Except.error () else Except.ok (encodeStateAsUpdate d sv)

/-- Modelled from the spec: `applyUpdate` of the opaque engine
(`Y.applyUpdate`); a malformed (empty) update throws and leaves the
document unchanged. -/
def applyUpdateE (d : YDoc) (u : Bytes) : Except Unit YDoc :=
  if u.isEmpty then Except.error () else Except.ok ⟨d.updates ++ [u]⟩

/-- `y-protocols/sync.writeSyncStep1`: sub-kind 0 then the local state
fingerprint, length-delimited. -/
def writeSyncStep1 (d : YDoc) : Bytes :=
  writeVarUint 0 ++ writeVarUint8Array (encodeStateVector d)

/-- `y-protocols/sync.writeSyncStep2`: sub-kind 1 then the diff against
the received fingerprint, length-delimited. -/
def writeSyncStep2 (d : YDoc) (sv : Bytes) : Bytes :=
  writeVarUint 1 ++ writeVarUint8Array (encodeStateAsUpdate d sv)

/-! ## Insertion-ordered maps and sets

JavaScript `Map` keeps keys in insertion order; `set` on an existing key
overwrites in place, `set` on a fresh key appends at the end, `delete`
removes the key.  `Set.add` appends a fresh element at the end. -/

def alookup [DecidableEq κ] (k : κ) : List (κ × β) → Option β
  | [] => none
  | (k2, v) :: rest => if k2 = k then some v else alookup k rest

def aset [DecidableEq κ] (k : κ) (v : β) : List (κ × β) → List (κ × β)
  | [] => [(k, v)]
  | (k2, v2) :: rest => if k2 = k then (k2, v) :: rest else (k2, v2) :: aset k v rest

def aerase [DecidableEq κ] (k : κ) (l : List (κ × β)) : List (κ × β) :=
  l.filter (fun e => decide (e.1 ≠ k))

theorem alookup_aset_self [DecidableEq κ] (k : κ) (v : β) (l : List (κ × β)) :
    alookup k (aset k v l) = some v := by
  induction l with
  | nil => simp [aset, alookup]
  | cons e rest ih =>
    by_cases h : e.1 = k
    · obtain ⟨k2, v2⟩ := e
      simp only at h
      simp [aset, alookup, h]
    · obtain ⟨k2, v2⟩ := e
      simp only at h
      simp [aset, alookup, h, ih]

theorem alookup_aset_ne [DecidableEq κ] (k k2 : κ) (v : β) (l : List (κ × β))
    (h : k2 ≠ k) : alookup k (aset k2 v l) = alookup k l := by
  induction l with
  | nil => simp [aset, alookup, h]
  | cons e rest ih =>
    by_cases he : e.1 = k2
    · obtain ⟨k3, v3⟩ := e
      simp only at he
      subst he
      simp [aset, alookup, h]
    · obtain ⟨k3, v3⟩ := e
      simp only at he
      simp only [aset, he, if_false, alookup]
      by_cases hk : k3 = k
      · simp [hk]
      · simp [hk, ih]

theorem alookup_aerase_self [DecidableEq κ] (k : κ) (l : List (κ × β)) :
    alookup k (aerase k l) = none := by
  induction l with
  | nil => simp [aerase, alookup]
  | cons e rest ih =>
    by_cases h : e.1 = k
    · simpa [aerase, alookup, h] using ih
    · simpa [aerase, alookup, h] using ih

theorem alookup_aerase_ne [DecidableEq κ] (k k2 : κ) (l : List (κ × β))
    (h : k2 ≠ k) : alookup k (aerase k2 l) = alookup k l := by
  induction l with
  | nil => simp [aerase, alookup]
  | cons e rest ih =>
    by_cases he : e.1 = k2
    · obtain ⟨k3, v3⟩ := e
      simp only at he
      subst he
      simpa [aerase, alookup, h] using ih
    · obtain ⟨k3, v3⟩ := e
      simp only at he
      by_cases hk : k3 = k
      · subst hk
        simp [aerase, alookup, List.filter_cons, he]
      · simpa [aerase, alookup, List.filter_cons, he, hk] using ih

/-- `Set.add`: append if not already present (insertion order kept). -/
def addConn (c : ConnId) (l : List ConnId) : List ConnId :=
  if c ∈ l then l else l ++ [c]

/-! ## Server state and observable outputs -/

/-- Message kind constants of `yjs-websocket-server.ts`. -/
def messageSync : Nat := 0

def messageAwareness : Nat := 1

/-- `FLUSH_INTERVAL = 50` (ms), the update debounce delay D1. -/
def FLUSH_INTERVAL : Nat := 50

/-- `AWARENESS_FLUSH_INTERVAL = 100` (ms), the presence debounce D2. -/
def AWARENESS_FLUSH_INTERVAL : Nat := 100

/-- The module-level mutable registries of `yjs-websocket-server.ts`:
`docs`, `connections`, `heartbeats` (which connections own a live
heartbeat timer), `updateBuffers`, `flushTimers` (absolute deadline of
the pending `setTimeout`), `awarenessBuffers`, `awarenessFlushTimers`. -/
structure ServerState where
  docs : List (RoomId × YDoc)
  connections : List (RoomId × List ConnId)
  heartbeats : List ConnId
  updateBuffers : List (RoomId × List (ConnId × Bytes))
  flushTimers : List (RoomId × Nat)
  awarenessBuffers : List (RoomId × List (ConnId × Bytes))
  awarenessFlushTimers : List (RoomId × Nat)
deriving DecidableEq

/-- The registries are initialized empty at startup. -/
def ServerState.init : ServerState := ⟨[], [], [], [], [], [], []⟩

/-- Observable side effects: `ws.send` of a binary frame, the
JSON-text error reply sent from the catch block, `ws.close(code)`, and
the `console.warn` for unknown message kinds. -/
inductive Out where
  | send (dst : ConnId) (msg : Bytes)
  | sendErrText (dst : ConnId)
  | closeConn (dst : ConnId) (code : Nat)
  | warnUnknown (kind : Nat)
deriving DecidableEq

/-- Binary frames actually delivered to connection `c`, in order. -/
def sendsTo (c : ConnId) (outs : List Out) : List Bytes :=
  outs.filterMap (fun o => match o with
    | Out.send d m => if d = c then some m else none
    | _ => none)

/-! ## Connection admission (`wss.on('connection')`) -/

/-- The room-path check `pathname.match(/^\/(.+)$/)`: a leading slash
followed by a nonempty remainder in which `.` matches anything except a
line terminator (a raw newline cannot survive URL parsing, but the
regex semantics are kept). -/
def matchRoomPath (p : List Char) : Option RoomId :=
  match p with
  | [] => none
  | c :: rest =>
    if c = '/' then
      if rest.isEmpty then none
      else if rest.all (fun ch => decide (ch ≠ '\n')) then some rest else none
    else none

/-- `wss.on('connection')`: parse the room from the path (refusing with
close code 1008 on failure), get-or-create the document and connection
set, add the connection, start its heartbeat, and send the initial
SYNC/STEP1 frame. -/
def handleConnection (st : ServerState) (path : List Char) (ws : ConnId) :
    ServerState × List Out :=
  match matchRoomPath path with
  | none => (st, [Out.closeConn ws 1008])
  | some roomName =>
    let docs1 := match alookup roomName st.docs with
      | none => aset roomName YDoc.empty st.docs
      | some _ => st.docs
    let conns1 := match alookup roomName st.connections with
      | none => aset roomName [] st.connections
      | some _ => st.connections
    let doc := (alookup roomName docs1).getD YDoc.empty
    let roomConns := (alookup roomName conns1).getD []
    let hbs := if ws ∈ st.heartbeats then st.heartbeats else st.heartbeats ++ [ws]
    ({ st with docs := docs1,
               connections := aset roomName (addConn ws roomConns) conns1,
               heartbeats := hbs },
     [Out.send ws (writeVarUint messageSync ++ writeSyncStep1 doc)])

/-! ## Inbound message handling (`ws.on('message')`) -/

/-- The body of the `try` block of the message handler.  `opn c`
mirrors `c.readyState === 1`, `now` is the current event-loop time used
to arm the debounce deadlines, `roomName` is the room captured by the
connection closure.  `Except.error` is a thrown decode or
document-engine exception, caught by the surrounding catch block. -/
def processMessage (st : ServerState) (opn : ConnId → Bool) (now : Nat)
    (ws : ConnId) (roomName : RoomId) (data : Bytes) :
    Except Unit (ServerState × List Out) :=
  let doc := (alookup roomName st.docs).getD YDoc.empty
  let roomConns := (alookup roomName st.connections).getD []
  match readVarUint data with
  | none => Except.error ()
  | some (messageType, r1) =>
    if messageType = messageSync then
      match readVarUint r1 with
      | none => Except.error ()
      | some (syncType, r2) =>
        if syncType = 0 then
          match readVarUint8Array r2 with
          | none => Except.error ()
          | some (sv, _) =>
            match encodeStateAsUpdateE doc sv with
            | Except.error e => Except.error e
            | Except.ok diff =>
              let enc := writeVarUint messageSync ++ writeVarUint 1 ++ writeVarUint8Array diff
              Except.ok (st, if enc.length > 1 then [Out.send ws enc] else [])
        else if syncType = 1 then
          match readVarUint8Array r2 with
          | none => Except.error ()
          | some (u, _) =>
            match applyUpdateE doc u with
            | Except.error e => Except.error e
            | Except.ok doc2 =>
              let enc := writeVarUint messageSync
              Except.ok ({ st with docs := aset roomName doc2 st.docs },
                         if enc.length > 1 then [Out.send ws enc] else [])
        else if syncType = 2 then
          match readVarUint8Array r2 with
          | none => Except.error ()
          | some (u, _) =>
            match applyUpdateE doc u with
            | Except.error e => Except.error e
            | Except.ok doc2 =>
              let buf := (alookup roomName st.updateBuffers).getD []
              let buf2 := buf ++
                (roomConns.filter (fun c => decide (c ≠ ws) && opn c)).map
                  (fun c => (c, data))
              Except.ok ({ st with
                  docs := aset roomName doc2 st.docs,
                  updateBuffers := aset roomName buf2 st.updateBuffers,
                  flushTimers := aset roomName (now + FLUSH_INTERVAL) st.flushTimers },
                [])
        else
          let enc := writeVarUint messageSync
          Except.ok (st, if enc.length > 1 then [Out.send ws enc] else [])
    else if messageType = messageAwareness then
      let buf := (alookup roomName st.awarenessBuffers).getD []
      let buf2 := buf ++
        (roomConns.filter (fun c => decide (c ≠ ws) && opn c)).map
          (fun c => (c, data))
      Except.ok ({ st with
          awarenessBuffers := aset roomName buf2 st.awarenessBuffers,
          awarenessFlushTimers :=
            aset roomName (now + AWARENESS_FLUSH_INTERVAL) st.awarenessFlushTimers },
        [])
    else
      Except.ok (st, [Out.warnUnknown messageType])

/-- `ws.on('message')` with its catch block: a thrown exception is
logged and answered with the JSON error text, all registries left as
they were. -/
def handleMessage (st : ServerState) (opn : ConnId → Bool) (now : Nat)
    (ws : ConnId) (roomName : RoomId) (data : Bytes) : ServerState × List Out :=
  match processMessage st opn now ws roomName data with
  | Except.ok r => r
  | Except.error _ => (st, [Out.sendErrText ws])

/-! ## Batched flushes -/

/-- One step of the `clientMessages` grouping `Map`: append the message
to the destination's list (`Map.get(client).push`), creating the group
at the end on first sight (`Map.set(client, [])`). -/
def addToGroup (groups : List (ConnId × List Bytes)) (c : ConnId) (m : Bytes) :
    List (ConnId × List Bytes) :=
  match groups with
  | [] => [(c, [m])]
  | (k, ms) :: rest =>
    if k = c then (k, ms ++ [m]) :: rest else (k, ms) :: addToGroup rest c m

/-- `buffer.forEach`: group the buffered entries by destination,
skipping destinations whose `readyState` is no longer 1. -/
def groupByClient (opn : ConnId → Bool) (buffer : List (ConnId × Bytes)) :
    List (ConnId × List Bytes) :=
  buffer.foldl (fun acc e => if opn e.1 then addToGroup acc e.1 e.2 else acc) []

/-- `clientMessages.forEach`: each destination receives its grouped
messages in order (the single-message and multi-message branches of the
source send the same frames in the same order). -/
def toUpdateOuts (groups : List (ConnId × List Bytes)) : List Out :=
  groups.flatMap (fun g => g.2.map (fun m => Out.send g.1 m))

/-- `flushUpdateBuffer`: early-return on a missing or empty buffer,
otherwise group by destination, send, and reset the buffer to `[]`. -/
def flushUpdateBuffer (st : ServerState) (opn : ConnId → Bool) (roomName : RoomId) :
    ServerState × List Out :=
  let buffer := (alookup roomName st.updateBuffers).getD []
  if buffer.isEmpty then (st, [])
  else ({ st with updateBuffers := aset roomName [] st.updateBuffers },
        toUpdateOuts (groupByClient opn buffer))

/-- `latestByClient`: a `Map.set` per buffered entry, so only the last
message for each still-open destination survives. -/
def latestByClient (opn : ConnId → Bool) (buffer : List (ConnId × Bytes)) :
    List (ConnId × Bytes) :=
  buffer.foldl (fun acc e => if opn e.1 then aset e.1 e.2 acc else acc) []

/-- `flushAwarenessBuffer`: early-return on a missing or empty buffer,
otherwise send each destination only its latest buffered message and
reset the buffer to `[]`. -/
def flushAwarenessBuffer (st : ServerState) (opn : ConnId → Bool) (roomName : RoomId) :
    ServerState × List Out :=
  let buffer := (alookup roomName st.awarenessBuffers).getD []
  if buffer.isEmpty then (st, [])
  else ({ st with awarenessBuffers := aset roomName [] st.awarenessBuffers },
        (latestByClient opn buffer).map (fun g => Out.send g.1 g.2))

/-- The `setTimeout` callback armed in the UPDATE branch: when the
room's pending deadline has been reached it runs `flushUpdateBuffer`
and then deletes the room's timer entry; a timer that was cancelled,
never armed, or not yet due does nothing. -/
def fireUpdateFlush (st : ServerState) (opn : ConnId → Bool) (roomName : RoomId)
    (now : Nat) : ServerState × List Out :=
  match alookup roomName st.flushTimers with
  | none => (st, [])
  | some d =>
    if d ≤ now then
      let r := flushUpdateBuffer st opn roomName
      ({ r.1 with flushTimers := aerase roomName r.1.flushTimers }, r.2)
    else (st, [])

/-- The `setTimeout` callback armed in the awareness branch. -/
def fireAwarenessFlush (st : ServerState) (opn : ConnId → Bool) (roomName : RoomId)
    (now : Nat) : ServerState × List Out :=
  match alookup roomName st.awarenessFlushTimers with
  | none => (st, [])
  | some d =>
    if d ≤ now then
      let r := flushAwarenessBuffer st opn roomName
      ({ r.1 with awarenessFlushTimers := aerase roomName r.1.awarenessFlushTimers }, r.2)
    else (st, [])

/-! ## Teardown (`ws.on('close')`, `ws.on('error')`) -/

/-- `ws.on('close')`: remove the connection from its room's set, cancel
its heartbeat, and — when the set became empty — release the room's
timers, buffers, connection set and document together. -/
def handleClose (st : ServerState) (ws : ConnId) (roomName : RoomId) : ServerState :=
  let roomConns := ((alookup roomName st.connections).getD []).filter
    (fun c => decide (c ≠ ws))
  let st1 := { st with connections := aset roomName roomConns st.connections,
                       heartbeats := st.heartbeats.filter (fun c => decide (c ≠ ws)) }
  if roomConns.isEmpty then
    { st1 with flushTimers := aerase roomName st1.flushTimers,
               awarenessFlushTimers := aerase roomName st1.awarenessFlushTimers,
               updateBuffers := aerase roomName st1.updateBuffers,
               awarenessBuffers := aerase roomName st1.awarenessBuffers,
               connections := aerase roomName st1.connections,
               docs := aerase roomName st1.docs }
  else st1

/-- `ws.on('error')`: remove the connection from its room's set and
cancel its heartbeat; the source has no empty-room cleanup here. -/
def handleError (st : ServerState) (ws : ConnId) (roomName : RoomId) : ServerState :=
  let roomConns := ((alookup roomName st.connections).getD []).filter
    (fun c => decide (c ≠ ws))
  { st with connections := aset roomName roomConns st.connections,
            heartbeats := st.heartbeats.filter (fun c => decide (c ≠ ws)) }

/-! ## The earlier immediate-broadcast implementation

`src/unnamed/part_000` is the pre-batching version of the same server:
the UPDATE and awareness branches broadcast to every other open
connection immediately instead of buffering.  Parsing, replies, the
document mutation and the error handling are identical. -/

/-- Message handler body of the immediate-broadcast implementation. -/
def processMessageImm (st : ServerState) (opn : ConnId → Bool)
    (ws : ConnId) (roomName : RoomId) (data : Bytes) :
    Except Unit (ServerState × List Out) :=
  let doc := (alookup roomName st.docs).getD YDoc.empty
  let roomConns := (alookup roomName st.connections).getD []
  match readVarUint data with
  | none => Except.error ()
  | some (messageType, r1) =>
    if messageType = messageSync then
      match readVarUint r1 with
      | none => Except.error ()
      | some (syncType, r2) =>
        if syncType = 0 then
          match readVarUint8Array r2 with
          | none => Except.error ()
          | some (sv, _) =>
            match encodeStateAsUpdateE doc sv with
            | Except.error e => Except.error e
            | Except.ok diff =>
              let enc := writeVarUint messageSync ++ writeVarUint 1 ++ writeVarUint8Array diff
              Except.ok (st, if enc.length > 1 then [Out.send ws enc] else [])
        else if syncType = 1 then
          match readVarUint8Array r2 with
          | none => Except.error ()
          | some (u, _) =>
            match applyUpdateE doc u with
            | Except.error e => Except.error e
            | Except.ok doc2 =>
              let enc := writeVarUint messageSync
              Except.ok ({ st with docs := aset roomName doc2 st.docs },
                         if enc.length > 1 then [Out.send ws enc] else [])
        else if syncType = 2 then
          match readVarUint8Array r2 with
          | none => Except.error ()
          | some (u, _) =>
            match applyUpdateE doc u with
            | Except.error e => Except.error e
            | Except.ok doc2 =>
              Except.ok ({ st with docs := aset roomName doc2 st.docs },
                (roomConns.filter (fun c => decide (c ≠ ws) && opn c)).map
                  (fun c => Out.send c data))
        else
          let enc := writeVarUint messageSync
          Except.ok (st, if enc.length > 1 then [Out.send ws enc] else [])
    else if messageType = messageAwareness then
      Except.ok (st,
        (roomConns.filter (fun c => decide (c ≠ ws) && opn c)).map
          (fun c => Out.send c data))
    else
      Except.ok (st, [Out.warnUnknown messageType])

/-- `ws.on('message')` of the immediate-broadcast implementation. -/
def handleMessageImm (st : ServerState) (opn : ConnId → Bool)
    (ws : ConnId) (roomName : RoomId) (data : Bytes) : ServerState × List Out :=
  match processMessageImm st opn ws roomName data with
  | Except.ok r => r
  | Except.error _ => (st, [Out.sendErrText ws])

/-! ## Frame constructors and small observers -/

/-- A well-framed SYNC message: kind 0, a sub-kind, a length-delimited
payload. -/
def mkSyncFrame (sub : Nat) (payload : Bytes) : Bytes :=
  writeVarUint messageSync ++ (writeVarUint sub ++ writeVarUint8Array payload)

/-- A PRESENCE (awareness) frame: kind 1 followed by an opaque payload
the server forwards without interpreting. -/
def mkAwarenessFrame (payload : Bytes) : Bytes :=
  writeVarUint messageAwareness ++ payload

/-- The messages buffered for destination `c`, in append order. -/
def updFor (c : ConnId) (buffer : List (ConnId × Bytes)) : List Bytes :=
  (buffer.filter (fun e => decide (e.1 = c))).map Prod.snd

/-- The last element of `l` as a singleton, or `d` when `l` is empty. -/
def lastOr (l : List α) (d : List α) : List α :=
  match l with
  | [] => d
  | [m] => [m]
  | _ :: m :: rest => lastOr (m :: rest) d

/-- Spec wording for claim C2: the path form `/<roomId>` with exactly
one non-empty segment (no further slash inside the room identifier). -/
def isSingleSegmentPath (p : List Char) : Bool :=
  match p with
  | [] => false
  | c :: rest =>
    decide (c = '/') && !rest.isEmpty && rest.all (fun ch => decide (ch ≠ '/'))

/-! ## Evaluation of the message handler on well-framed inputs -/

theorem processMessage_updateFrame (st : ServerState) (opn : ConnId → Bool)
    (now : Nat) (ws : ConnId) (roomName : RoomId) (u : Bytes) (hu : u ≠ []) :
    processMessage st opn now ws roomName (mkSyncFrame 2 u) =
      Except.ok ({ st with
          docs := aset roomName
            ⟨((alookup roomName st.docs).getD YDoc.empty).updates ++ [u]⟩ st.docs,
          updateBuffers := aset roomName
            (((alookup roomName st.updateBuffers).getD []) ++
              (((alookup roomName st.connections).getD []).filter
                (fun c => decide (c ≠ ws) && opn c)).map (fun c => (c, mkSyncFrame 2 u)))
            st.updateBuffers,
          flushTimers := aset roomName (now + FLUSH_INTERVAL) st.flushTimers },
        []) := by
  have hue : u.isEmpty = false := by
    cases u with
    | nil => exact absurd rfl hu
    | cons a l => rfl
  have h3 : readVarUint8Array (writeVarUint8Array u) = some (u, []) := by
    simpa using readVarUint8Array_writeVarUint8Array u []
  unfold processMessage
  simp only [show mkSyncFrame 2 u =
      writeVarUint 0 ++ (writeVarUint 2 ++ writeVarUint8Array u) from rfl,
    readVarUint_writeVarUint, h3, messageSync, messageAwareness,
    applyUpdateE, hue]
  simp

theorem writeVarUint_small (n : Nat) (h : n ≤ 127) : writeVarUint n = [n] := by
  unfold writeVarUint
  cases n with
  | zero => simp [writeVarUintGo]
  | succ m => simp [writeVarUintGo, show ¬ (m + 1 > 127) by omega]

theorem processMessage_step1Frame (st : ServerState) (opn : ConnId → Bool)
    (now : Nat) (ws : ConnId) (roomName : RoomId) (sv : Bytes) (hsv : sv ≠ []) :
    processMessage st opn now ws roomName (mkSyncFrame 0 sv) =
      Except.ok (st,
        [Out.send ws (writeVarUint messageSync ++
          writeSyncStep2 ((alookup roomName st.docs).getD YDoc.empty) sv)]) := by
  have hsve : sv.isEmpty = false := by
    cases sv with
    | nil => exact absurd rfl hsv
    | cons a l => rfl
  have h3 : readVarUint8Array (writeVarUint8Array sv) = some (sv, []) := by
    simpa using readVarUint8Array_writeVarUint8Array sv []
  unfold processMessage
  simp only [show mkSyncFrame 0 sv =
      writeVarUint 0 ++ (writeVarUint 0 ++ writeVarUint8Array sv) from rfl,
    readVarUint_writeVarUint, h3, messageSync, messageAwareness,
    encodeStateAsUpdateE, hsve]
  simp [writeSyncStep2, writeVarUint_small, writeVarUint8Array]

theorem processMessage_step2Frame (st : ServerState) (opn : ConnId → Bool)
    (now : Nat) (ws : ConnId) (roomName : RoomId) (u : Bytes) (hu : u ≠ []) :
    processMessage st opn now ws roomName (mkSyncFrame 1 u) =
      Except.ok ({ st with
          docs := aset roomName
            ⟨((alookup roomName st.docs).getD YDoc.empty).updates ++ [u]⟩ st.docs },
        []) := by
  have hue : u.isEmpty = false := by
    cases u with
    | nil => exact absurd rfl hu
    | cons a l => rfl
  have h3 : readVarUint8Array (writeVarUint8Array u) = some (u, []) := by
    simpa using readVarUint8Array_writeVarUint8Array u []
  unfold processMessage
  simp only [show mkSyncFrame 1 u =
      writeVarUint 0 ++ (writeVarUint 1 ++ writeVarUint8Array u) from rfl,
    readVarUint_writeVarUint, h3, messageSync, messageAwareness,
    applyUpdateE, hue]
  simp [writeVarUint_small]

theorem processMessage_awarenessFrame (st : ServerState) (opn : ConnId → Bool)
    (now : Nat) (ws : ConnId) (roomName : RoomId) (payload : Bytes) :
    processMessage st opn now ws roomName (mkAwarenessFrame payload) =
      Except.ok ({ st with
          awarenessBuffers := aset roomName
            (((alookup roomName st.awarenessBuffers).getD []) ++
              (((alookup roomName st.connections).getD []).filter
                (fun c => decide (c ≠ ws) && opn c)).map
                  (fun c => (c, mkAwarenessFrame payload)))
            st.awarenessBuffers,
          awarenessFlushTimers :=
            aset roomName (now + AWARENESS_FLUSH_INTERVAL) st.awarenessFlushTimers },
        []) := by
  unfold processMessage
  simp only [show mkAwarenessFrame payload = writeVarUint 1 ++ payload from rfl,
    readVarUint_writeVarUint, messageSync, messageAwareness]
  simp

theorem processMessageImm_updateFrame (st : ServerState) (opn : ConnId → Bool)
    (ws : ConnId) (roomName : RoomId) (u : Bytes) (hu : u ≠ []) :
    processMessageImm st opn ws roomName (mkSyncFrame 2 u) =
      Except.ok ({ st with
          docs := aset roomName
            ⟨((alookup roomName st.docs).getD YDoc.empty).updates ++ [u]⟩ st.docs },
        (((alookup roomName st.connections).getD []).filter
          (fun c => decide (c ≠ ws) && opn c)).map
            (fun c => Out.send c (mkSyncFrame 2 u))) := by
  have hue : u.isEmpty = false := by
    cases u with
    | nil => exact absurd rfl hu
    | cons a l => rfl
  have h3 : readVarUint8Array (writeVarUint8Array u) = some (u, []) := by
    simpa using readVarUint8Array_writeVarUint8Array u []
  unfold processMessageImm
  simp only [show mkSyncFrame 2 u =
      writeVarUint 0 ++ (writeVarUint 2 ++ writeVarUint8Array u) from rfl,
    readVarUint_writeVarUint, h3, messageSync, messageAwareness,
    applyUpdateE, hue]
  simp

/-! ## Characterization of the update flush -/

@[simp] theorem sendsTo_nil (c : ConnId) : sendsTo c [] = [] := rfl

@[simp] theorem sendsTo_cons_send (c d : ConnId) (m : Bytes) (outs : List Out) :
    sendsTo c (Out.send d m :: outs) =
      if d = c then m :: sendsTo c outs else sendsTo c outs := by
  unfold sendsTo
  by_cases h : d = c <;> simp [List.filterMap_cons, h]

@[simp] theorem sendsTo_cons_errText (c d : ConnId) (outs : List Out) :
    sendsTo c (Out.sendErrText d :: outs) = sendsTo c outs := by
  simp [sendsTo, List.filterMap_cons]

@[simp] theorem sendsTo_cons_close (c d : ConnId) (code : Nat) (outs : List Out) :
    sendsTo c (Out.closeConn d code :: outs) = sendsTo c outs := by
  simp [sendsTo, List.filterMap_cons]

@[simp] theorem sendsTo_cons_warn (c : ConnId) (k : Nat) (outs : List Out) :
    sendsTo c (Out.warnUnknown k :: outs) = sendsTo c outs := by
  simp [sendsTo, List.filterMap_cons]

@[simp] theorem sendsTo_append (c : ConnId) (a b : List Out) :
    sendsTo c (a ++ b) = sendsTo c a ++ sendsTo c b := by
  simp [sendsTo, List.filterMap_append]

theorem sendsTo_map_send (c k : ConnId) (ms : List Bytes) :
    sendsTo c (ms.map (fun m => Out.send k m)) = if k = c then ms else [] := by
  induction ms with
  | nil => simp
  | cons m rest ih =>
    by_cases h : k = c
    · subst h
      simp [ih]
    · simp [h, ih]

theorem updFor_append (c : ConnId) (a b : List (ConnId × Bytes)) :
    updFor c (a ++ b) = updFor c a ++ updFor c b := by
  simp [updFor, List.filter_append]

theorem updFor_map_pair (c : ConnId) (d : Bytes) (l : List ConnId) :
    updFor c ((l.map (fun x => (x, d)))) =
      sendsTo c (l.map (fun x => Out.send x d)) := by
  induction l with
  | nil => simp [updFor]
  | cons x rest ih =>
    simp only [List.map_cons, updFor, List.filter_cons] at ih ⊢
    by_cases h : x = c
    · subst h
      simp [ih]
    · simp [h, ih]

theorem sendsTo_toUpdateOuts_not_mem (c : ConnId)
    (groups : List (ConnId × List Bytes)) (h : c ∉ groups.map Prod.fst) :
    sendsTo c (toUpdateOuts groups) = [] := by
  induction groups with
  | nil => simp [toUpdateOuts]
  | cons g rest ih =>
    simp only [List.map_cons, List.mem_cons] at h
    push_neg at h
    simp only [toUpdateOuts, List.flatMap_cons, sendsTo_append]
    rw [sendsTo_map_send, if_neg (fun hh => h.1 hh.symm)]
    simpa using ih h.2

theorem addToGroup_keys (groups : List (ConnId × List Bytes)) (k : ConnId) (m : Bytes) :
    (addToGroup groups k m).map Prod.fst =
      if k ∈ groups.map Prod.fst then groups.map Prod.fst
      else groups.map Prod.fst ++ [k] := by
  induction groups with
  | nil => simp [addToGroup]
  | cons g rest ih =>
    obtain ⟨k2, ms⟩ := g
    by_cases h : k2 = k
    · simp [addToGroup, h]
    · simp only [addToGroup, h, if_false, List.map_cons, ih]
      by_cases hm : k ∈ rest.map Prod.fst
      · simp [hm, Ne.symm h]
      · simp [hm, Ne.symm h]

theorem addToGroup_nodup (groups : List (ConnId × List Bytes)) (k : ConnId)
    (m : Bytes) (h : (groups.map Prod.fst).Nodup) :
    ((addToGroup groups k m).map Prod.fst).Nodup := by
  rw [addToGroup_keys]
  by_cases hm : k ∈ groups.map Prod.fst
  · simpa [hm] using h
  · simp only [hm, if_false]
    refine List.nodup_append.mpr ⟨h, List.nodup_singleton _, ?_⟩
    intro a ha hb
    simp only [List.mem_singleton] at hb
    subst hb
    exact hm ha

theorem sendsTo_toUpdateOuts_addToGroup (c k : ConnId) (m : Bytes)
    (groups : List (ConnId × List Bytes)) (h : (groups.map Prod.fst).Nodup) :
    sendsTo c (toUpdateOuts (addToGroup groups k m)) =
      sendsTo c (toUpdateOuts groups) ++ (if k = c then [m] else []) := by
  induction groups with
  | nil =>
    by_cases hc : k = c <;> simp [addToGroup, toUpdateOuts, hc]
  | cons g rest ih =>
    obtain ⟨k2, ms⟩ := g
    simp only [List.map_cons, List.nodup_cons] at h
    by_cases hk : k2 = k
    · subst hk
      simp only [addToGroup, if_true, toUpdateOuts, List.flatMap_cons, sendsTo_append]
      rw [sendsTo_map_send, sendsTo_map_send]
      by_cases hc : k2 = c
      · subst hc
        have hrest : sendsTo k2 (toUpdateOuts rest) = [] :=
          sendsTo_toUpdateOuts_not_mem k2 rest h.1
        simp only [toUpdateOuts] at hrest
        simp [hrest]
      · simp [hc]
    · simp only [addToGroup, hk, if_false, toUpdateOuts, List.flatMap_cons,
        sendsTo_append]
      rw [sendsTo_map_send]
      have hih := ih h.2
      simp only [toUpdateOuts] at hih
      rw [hih]
      by_cases hc : k2 = c <;> simp [hc]

theorem groupByClient_fold (c : ConnId) (opn : ConnId → Bool)
    (buffer : List (ConnId × Bytes)) :
    ∀ acc : List (ConnId × List Bytes), (acc.map Prod.fst).Nodup →
      sendsTo c (toUpdateOuts (buffer.foldl
        (fun a e => if opn e.1 then addToGroup a e.1 e.2 else a) acc)) =
      sendsTo c (toUpdateOuts acc) ++ (if opn c then updFor c buffer else []) := by
  induction buffer with
  | nil =>
    intro acc hacc
    simp [updFor]
  | cons e rest ih =>
    intro acc hacc
    obtain ⟨d, m⟩ := e
    by_cases hd : opn d = true
    · simp only [List.foldl_cons, hd, if_true]
      rw [ih (addToGroup acc d m) (addToGroup_nodup acc d m hacc)]
      rw [sendsTo_toUpdateOuts_addToGroup c d m acc hacc]
      by_cases hc : d = c
      · subst hc
        simp [updFor, List.filter_cons, hd]
      · simp [updFor, List.filter_cons, hc]
    · rw [Bool.not_eq_true] at hd
      simp only [List.foldl_cons, hd, Bool.false_eq_true, if_false]
      rw [ih acc hacc]
      by_cases hc : d = c
      · subst hc
        simp [updFor, List.filter_cons, hd]
      · simp [updFor, List.filter_cons, hc]

/-- What the update flush actually sends to each destination: its own
buffered messages, in append order, and only while it is still open. -/
theorem flushUpdateBuffer_sendsTo (st : ServerState) (opn : ConnId → Bool)
    (roomName : RoomId) (c : ConnId) :
    sendsTo c (flushUpdateBuffer st opn roomName).2 =
      (if opn c then updFor c ((alookup roomName st.updateBuffers).getD []) else []) := by
  unfold flushUpdateBuffer
  by_cases hb : ((alookup roomName st.updateBuffers).getD []).isEmpty
  · rw [List.isEmpty_iff] at hb
    simp [hb, updFor]
  · simp only [hb, if_false]
    have := groupByClient_fold c opn ((alookup roomName st.updateBuffers).getD []) [] (by simp)
    simpa [groupByClient, toUpdateOuts] using this

theorem flushUpdateBuffer_state (st : ServerState) (opn : ConnId → Bool)
    (roomName : RoomId) :
    (flushUpdateBuffer st opn roomName).1.docs = st.docs ∧
    (flushUpdateBuffer st opn roomName).1.connections = st.connections ∧
    (flushUpdateBuffer st opn roomName).1.heartbeats = st.heartbeats ∧
    (flushUpdateBuffer st opn roomName).1.flushTimers = st.flushTimers ∧
    (flushUpdateBuffer st opn roomName).1.awarenessBuffers = st.awarenessBuffers ∧
    (flushUpdateBuffer st opn roomName).1.awarenessFlushTimers = st.awarenessFlushTimers := by
  unfold flushUpdateBuffer
  by_cases hb : ((alookup roomName st.updateBuffers).getD []).isEmpty <;> simp [hb]

theorem flushUpdateBuffer_empties (st : ServerState) (opn : ConnId → Bool)
    (roomName : RoomId)
    (h : (alookup roomName st.updateBuffers).getD [] ≠ []) :
    alookup roomName (flushUpdateBuffer st opn roomName).1.updateBuffers = some [] := by
  unfold flushUpdateBuffer
  have hb : ((alookup roomName st.updateBuffers).getD []).isEmpty = false := by
    cases hx : (alookup roomName st.updateBuffers).getD [] with
    | nil => exact absurd hx h
    | cons a l => rfl
  simp [hb, alookup_aset_self]

/-! ## Characterization of the awareness flush -/

/-- The sends emitted from the `latestByClient` map. -/
def toAwOuts (groups : List (ConnId × Bytes)) : List Out :=
  groups.map (fun g => Out.send g.1 g.2)

theorem sendsTo_toAwOuts_not_mem (c : ConnId) (groups : List (ConnId × Bytes))
    (h : c ∉ groups.map Prod.fst) :
    sendsTo c (toAwOuts groups) = [] := by
  induction groups with
  | nil => simp [toAwOuts]
  | cons g rest ih =>
    obtain ⟨k2, v2⟩ := g
    simp only [List.map_cons, List.mem_cons] at h
    push_neg at h
    simp only [toAwOuts, List.map_cons, sendsTo_cons_send]
    rw [if_neg (fun hh => h.1 hh.symm)]
    simpa [toAwOuts] using ih h.2

theorem aset_keys (groups : List (ConnId × Bytes)) (k : ConnId) (m : Bytes) :
    (aset k m groups).map Prod.fst =
      if k ∈ groups.map Prod.fst then groups.map Prod.fst
      else groups.map Prod.fst ++ [k] := by
  induction groups with
  | nil => simp [aset]
  | cons g rest ih =>
    obtain ⟨k2, v2⟩ := g
    by_cases h : k2 = k
    · simp [aset, h]
    · simp only [aset, h, if_false, List.map_cons, ih]
      by_cases hm : k ∈ rest.map Prod.fst
      · simp [hm, Ne.symm h]
      · simp [hm, Ne.symm h]

theorem aset_nodup (groups : List (ConnId × Bytes)) (k : ConnId) (m : Bytes)
    (h : (groups.map Prod.fst).Nodup) :
    ((aset k m groups).map Prod.fst).Nodup := by
  rw [aset_keys]
  by_cases hm : k ∈ groups.map Prod.fst
  · simpa [hm] using h
  · simp only [hm, if_false]
    refine List.nodup_append.mpr ⟨h, List.nodup_singleton _, ?_⟩
    intro a ha hb
    simp only [List.mem_singleton] at hb
    subst hb
    exact hm ha

theorem sendsTo_toAwOuts_aset (c k : ConnId) (m : Bytes)
    (groups : List (ConnId × Bytes)) (h : (groups.map Prod.fst).Nodup) :
    sendsTo c (toAwOuts (aset k m groups)) =
      (if k = c then [m] else sendsTo c (toAwOuts groups)) := by
  induction groups with
  | nil =>
    by_cases hc : k = c <;> simp [aset, toAwOuts, hc]
  | cons g rest ih =>
    obtain ⟨k2, v2⟩ := g
    simp only [List.map_cons, List.nodup_cons] at h
    by_cases hk : k2 = k
    · subst hk
      simp only [aset, if_true, toAwOuts, List.map_cons, sendsTo_cons_send]
      by_cases hc : k2 = c
      · subst hc
        have hrest : sendsTo k2 (toAwOuts rest) = [] :=
          sendsTo_toAwOuts_not_mem k2 rest h.1
        simp only [toAwOuts] at hrest
        simp [hrest]
      · simp [hc]
    · simp only [aset, hk, if_false, toAwOuts, List.map_cons, sendsTo_cons_send]
      have hih := ih h.2
      simp only [toAwOuts] at hih
      rw [hih]
      by_cases hc : k2 = c
      · subst hc
        have hkk : ¬ k = k2 := fun hh => hk hh.symm
        simp [hkk]
      · simp [hc]

theorem lastOr_ne_nil (l : List α) (h : l ≠ []) (d d2 : List α) :
    lastOr l d = lastOr l d2 := by
  induction l with
  | nil => exact absurd rfl h
  | cons a rest ih =>
    cases rest with
    | nil => rfl
    | cons b rest2 =>
      simp only [lastOr]
      exact ih (by simp)

theorem lastOr_cons (a : α) (l : List α) (d : List α) :
    lastOr (a :: l) d = lastOr l [a] := by
  cases l with
  | nil => rfl
  | cons b rest =>
    simp only [lastOr]
    exact lastOr_ne_nil (b :: rest) (by simp) d [a]

theorem latestByClient_fold (c : ConnId) (opn : ConnId → Bool)
    (buffer : List (ConnId × Bytes)) :
    ∀ acc : List (ConnId × Bytes), (acc.map Prod.fst).Nodup →
      sendsTo c (toAwOuts (buffer.foldl
        (fun a e => if opn e.1 then aset e.1 e.2 a else a) acc)) =
      (if opn c then lastOr (updFor c buffer) (sendsTo c (toAwOuts acc))
       else sendsTo c (toAwOuts acc)) := by
  induction buffer with
  | nil =>
    intro acc hacc
    by_cases hc : opn c <;> simp [updFor, lastOr, hc]
  | cons e rest ih =>
    intro acc hacc
    obtain ⟨d, m⟩ := e
    by_cases hd : opn d = true
    · simp only [List.foldl_cons, hd, if_true]
      rw [ih (aset d m acc) (aset_nodup acc d m hacc)]
      rw [sendsTo_toAwOuts_aset c d m acc hacc]
      by_cases hc : d = c
      · subst hc
        simp only [hd, if_true, if_pos rfl, updFor, List.filter_cons,
          decide_eq_true_eq, List.map_cons]
        rw [lastOr_cons]
      · simp only [updFor, List.filter_cons]
        have hdc : (decide ((d, m).1 = c)) = false := by simpa using hc
        rw [hdc]
        simp only [Bool.false_eq_true, if_false]
        rw [if_neg hc]
    · rw [Bool.not_eq_true] at hd
      simp only [List.foldl_cons, hd, Bool.false_eq_true, if_false]
      rw [ih acc hacc]
      by_cases hc : d = c
      · subst hc
        simp [updFor, List.filter_cons, hd]
      · simp only [updFor, List.filter_cons]
        have hdc : (decide ((d, m).1 = c)) = false := by simpa using hc
        rw [hdc]
        simp only [Bool.false_eq_true, if_false]

/-- What the awareness flush sends to each destination: only the latest
message buffered for it, and only while it is still open. -/
theorem flushAwarenessBuffer_sendsTo (st : ServerState) (opn : ConnId → Bool)
    (roomName : RoomId) (c : ConnId) :
    sendsTo c (flushAwarenessBuffer st opn roomName).2 =
      (if opn c
       then lastOr (updFor c ((alookup roomName st.awarenessBuffers).getD [])) []
       else []) := by
  unfold flushAwarenessBuffer
  by_cases hb : ((alookup roomName st.awarenessBuffers).getD []).isEmpty
  · rw [List.isEmpty_iff] at hb
    simp [hb, updFor, lastOr]
  · simp only [hb, if_false]
    have := latestByClient_fold c opn ((alookup roomName st.awarenessBuffers).getD []) [] (by simp)
    simpa [latestByClient, toAwOuts] using this

theorem flushAwarenessBuffer_empties (st : ServerState) (opn : ConnId → Bool)
    (roomName : RoomId)
    (h : (alookup roomName st.awarenessBuffers).getD [] ≠ []) :
    alookup roomName (flushAwarenessBuffer st opn roomName).1.awarenessBuffers = some [] := by
  unfold flushAwarenessBuffer
  have hb : ((alookup roomName st.awarenessBuffers).getD []).isEmpty = false := by
    cases hx : (alookup roomName st.awarenessBuffers).getD [] with
    | nil => exact absurd hx h
    | cons a l => rfl
  simp [hb, alookup_aset_self]

theorem updFor_self_filtered (ws : ConnId) (opn : ConnId → Bool) (d : Bytes)
    (l : List ConnId) :
    updFor ws ((l.filter (fun c => decide (c ≠ ws) && opn c)).map
      (fun c => (c, d))) = [] := by
  induction l with
  | nil => simp [updFor]
  | cons x rest ih =>
    by_cases hx : (decide (x ≠ ws) && opn x) = true
    · have hxw : ¬ x = ws := by
        simp only [Bool.and_eq_true, decide_eq_true_eq] at hx
        exact hx.1
      simp only [List.filter_cons, hx, if_true, List.map_cons]
      simp only [updFor, List.filter_cons] at ih ⊢
      have : (decide ((x, d).1 = ws)) = false := by simpa using hxw
      rw [this]
      simpa using ih
    · rw [Bool.not_eq_true] at hx
      simp only [List.filter_cons, hx, Bool.false_eq_true, if_false]
      exact ih

/-! ## Claim theorems -/

/-- Claim C6: a flush of the update buffer groups entries by
destination, sends nothing to a destination whose channel is no longer
open, delivers to each still-open destination exactly its buffered
entries in append (FIFO) order, and leaves the buffer empty. -/
theorem claim_C6_flush_fifo (st : ServerState) (opn : ConnId → Bool)
    (roomName : RoomId) (c : ConnId)
    (hne : (alookup roomName st.updateBuffers).getD [] ≠ []) :
    sendsTo c (flushUpdateBuffer st opn roomName).2 =
      (if opn c then updFor c ((alookup roomName st.updateBuffers).getD []) else []) ∧
    (opn c = false → sendsTo c (flushUpdateBuffer st opn roomName).2 = []) ∧
    alookup roomName (flushUpdateBuffer st opn roomName).1.updateBuffers = some [] := by
  refine ⟨flushUpdateBuffer_sendsTo st opn roomName c, ?_,
    flushUpdateBuffer_empties st opn roomName hne⟩
  intro h
  rw [flushUpdateBuffer_sendsTo]
  simp [h]

/-- Fixture state for the C6 witness: room `r` with three buffered
entries, two for destination 2 and one for destination 3; connection 3
is no longer open. -/
def stC6 : ServerState :=
  ⟨[], [], [], [(['r'], [(2, [9]), (3, [8]), (2, [7])])], [], [], []⟩

def opnC6 : ConnId → Bool := fun c => decide (c ≠ 3)

theorem claim_C6_witness :
    sendsTo 2 (flushUpdateBuffer stC6 opnC6 ['r']).2 =
      (if opnC6 2 then updFor 2 ((alookup ['r'] stC6.updateBuffers).getD []) else []) ∧
    (opnC6 2 = false → sendsTo 2 (flushUpdateBuffer stC6 opnC6 ['r']).2 = []) ∧
    alookup ['r'] (flushUpdateBuffer stC6 opnC6 ['r']).1.updateBuffers = some [] :=
  claim_C6_flush_fifo stC6 opnC6 ['r'] 2 (by decide)

/-- Claim C1: an inbound UPDATE frame enqueues one buffered entry per
room member other than the sender (and only such entries), produces no
immediate send, and the later flush delivers to the sender exactly the
messages that were already pending for it beforehand — never its own
UPDATE. -/
theorem claim_C1_no_self_echo (st : ServerState) (opn : ConnId → Bool) (now : Nat)
    (ws : ConnId) (roomName : RoomId) (u : Bytes) (hu : u ≠ []) :
    (handleMessage st opn now ws roomName (mkSyncFrame 2 u)).2 = [] ∧
    (alookup roomName
        (handleMessage st opn now ws roomName (mkSyncFrame 2 u)).1.updateBuffers).getD []
      = (alookup roomName st.updateBuffers).getD [] ++
        (((alookup roomName st.connections).getD []).filter
          (fun c => decide (c ≠ ws) && opn c)).map (fun c => (c, mkSyncFrame 2 u)) ∧
    (∀ e ∈ (((alookup roomName st.connections).getD []).filter
          (fun c => decide (c ≠ ws) && opn c)).map (fun c => (c, mkSyncFrame 2 u)),
       e.1 ≠ ws ∧ e.1 ∈ (alookup roomName st.connections).getD []) ∧
    sendsTo ws (flushUpdateBuffer
        (handleMessage st opn now ws roomName (mkSyncFrame 2 u)).1 opn roomName).2
      = (if opn ws then updFor ws ((alookup roomName st.updateBuffers).getD []) else []) := by
  have hpm := processMessage_updateFrame st opn now ws roomName u hu
  have hhm : handleMessage st opn now ws roomName (mkSyncFrame 2 u) =
      ({ st with
          docs := aset roomName
            ⟨((alookup roomName st.docs).getD YDoc.empty).updates ++ [u]⟩ st.docs,
          updateBuffers := aset roomName
            (((alookup roomName st.updateBuffers).getD []) ++
              (((alookup roomName st.connections).getD []).filter
                (fun c => decide (c ≠ ws) && opn c)).map (fun c => (c, mkSyncFrame 2 u)))
            st.updateBuffers,
          flushTimers := aset roomName (now + FLUSH_INTERVAL) st.flushTimers },
        []) := by
    unfold handleMessage
    rw [hpm]
  refine ⟨by rw [hhm], ?_, ?_, ?_⟩
  · rw [hhm]
    simp [alookup_aset_self]
  · intro e he
    simp only [List.mem_map, List.mem_filter] at he
    obtain ⟨x, ⟨hxm, hxf⟩, hxe⟩ := he
    simp only [Bool.and_eq_true, decide_eq_true_eq] at hxf
    subst hxe
    exact ⟨hxf.1, hxm⟩
  · rw [hhm, flushUpdateBuffer_sendsTo]
    by_cases ho : opn ws = true
    · simp only [ho, if_true, alookup_aset_self, Option.getD_some]
      rw [updFor_append, updFor_self_filtered]
      simp
    · rw [Bool.not_eq_true] at ho
      simp [ho]

def stC1 : ServerState :=
  ⟨[(['r'], YDoc.empty)], [(['r'], [1, 2, 3])], [1, 2, 3],
   [(['r'], [(1, [5])])], [], [], []⟩

def opnAll : ConnId → Bool := fun _ => true

theorem claim_C1_witness :
    (handleMessage stC1 opnAll 0 1 ['r'] (mkSyncFrame 2 [4])).2 = [] ∧
    (alookup ['r']
        (handleMessage stC1 opnAll 0 1 ['r'] (mkSyncFrame 2 [4])).1.updateBuffers).getD []
      = (alookup ['r'] stC1.updateBuffers).getD [] ++
        (((alookup ['r'] stC1.connections).getD []).filter
          (fun c => decide (c ≠ 1) && opnAll c)).map (fun c => (c, mkSyncFrame 2 [4])) ∧
    (∀ e ∈ (((alookup ['r'] stC1.connections).getD []).filter
          (fun c => decide (c ≠ 1) && opnAll c)).map (fun c => (c, mkSyncFrame 2 [4])),
       e.1 ≠ 1 ∧ e.1 ∈ (alookup ['r'] stC1.connections).getD []) ∧
    sendsTo 1 (flushUpdateBuffer
        (handleMessage stC1 opnAll 0 1 ['r'] (mkSyncFrame 2 [4])).1 opnAll ['r']).2
      = (if opnAll 1 then updFor 1 ((alookup ['r'] stC1.updateBuffers).getD []) else []) :=
  claim_C1_no_self_echo stC1 opnAll 0 1 ['r'] [4] (by decide)

/-- Claim C7: the UPDATE branch (re)arms the room's flush timer to
`now + FLUSH_INTERVAL` (FLUSH_INTERVAL = 50), cancelling any pending
deadline; the armed callback does nothing before the deadline; once the
deadline elapses a single fire delivers every buffered entry, removes
the timer, and any repeated fire afterwards is a no-op. -/
theorem claim_C7_debounce (st : ServerState) (opn : ConnId → Bool) (now : Nat)
    (ws : ConnId) (roomName : RoomId) (u : Bytes) (hu : u ≠ []) :
    FLUSH_INTERVAL = 50 ∧
    alookup roomName
        (handleMessage st opn now ws roomName (mkSyncFrame 2 u)).1.flushTimers
      = some (now + FLUSH_INTERVAL) ∧
    (∀ t, t < now + FLUSH_INTERVAL →
      fireUpdateFlush (handleMessage st opn now ws roomName (mkSyncFrame 2 u)).1
          opn roomName t
        = ((handleMessage st opn now ws roomName (mkSyncFrame 2 u)).1, [])) ∧
    (∀ t c, now + FLUSH_INTERVAL ≤ t →
      sendsTo c (fireUpdateFlush
          (handleMessage st opn now ws roomName (mkSyncFrame 2 u)).1 opn roomName t).2
        = (if opn c then updFor c ((alookup roomName
            (handleMessage st opn now ws roomName (mkSyncFrame 2 u)).1.updateBuffers).getD [])
           else []) ∧
      alookup roomName (fireUpdateFlush
          (handleMessage st opn now ws roomName (mkSyncFrame 2 u)).1 opn roomName t).1.flushTimers
        = none ∧
      (∀ t2, fireUpdateFlush (fireUpdateFlush
            (handleMessage st opn now ws roomName (mkSyncFrame 2 u)).1 opn roomName t).1
            opn roomName t2
        = ((fireUpdateFlush
            (handleMessage st opn now ws roomName (mkSyncFrame 2 u)).1 opn roomName t).1,
           []))) := by
  have hpm := processMessage_updateFrame st opn now ws roomName u hu
  have hhm : handleMessage st opn now ws roomName (mkSyncFrame 2 u) =
      ({ st with
          docs := aset roomName
            ⟨((alookup roomName st.docs).getD YDoc.empty).updates ++ [u]⟩ st.docs,
          updateBuffers := aset roomName
            (((alookup roomName st.updateBuffers).getD []) ++
              (((alookup roomName st.connections).getD []).filter
                (fun c => decide (c ≠ ws) && opn c)).map (fun c => (c, mkSyncFrame 2 u)))
            st.updateBuffers,
          flushTimers := aset roomName (now + FLUSH_INTERVAL) st.flushTimers },
        []) := by
    unfold handleMessage
    rw [hpm]
  have htim : alookup roomName
      (handleMessage st opn now ws roomName (mkSyncFrame 2 u)).1.flushTimers
      = some (now + FLUSH_INTERVAL) := by
    rw [hhm]
    exact alookup_aset_self roomName (now + FLUSH_INTERVAL) st.flushTimers
  refine ⟨rfl, htim, ?_, ?_⟩
  · intro t ht
    unfold fireUpdateFlush
    rw [htim]
    simp only [Nat.not_le.mpr ht, if_false]
  · intro t c ht
    have hfire : fireUpdateFlush
        (handleMessage st opn now ws roomName (mkSyncFrame 2 u)).1 opn roomName t
      = ({ (flushUpdateBuffer
            (handleMessage st opn now ws roomName (mkSyncFrame 2 u)).1 opn roomName).1
            with flushTimers := aerase roomName (flushUpdateBuffer
              (handleMessage st opn now ws roomName (mkSyncFrame 2 u)).1 opn roomName).1.flushTimers },
         (flushUpdateBuffer
            (handleMessage st opn now ws roomName (mkSyncFrame 2 u)).1 opn roomName).2) := by
      unfold fireUpdateFlush
      rw [htim]
      simp only [ht, if_true]
    refine ⟨?_, ?_, ?_⟩
    · rw [hfire]
      exact flushUpdateBuffer_sendsTo _ opn roomName c
    · rw [hfire]
      exact alookup_aerase_self roomName _
    · intro t2
      rw [hfire]
      unfold fireUpdateFlush
      rw [alookup_aerase_self]

theorem claim_C7_witness :
    FLUSH_INTERVAL = 50 ∧
    alookup ['r']
        (handleMessage stC1 opnAll 7 1 ['r'] (mkSyncFrame 2 [4])).1.flushTimers
      = some (7 + FLUSH_INTERVAL) ∧
    (fireUpdateFlush (handleMessage stC1 opnAll 7 1 ['r'] (mkSyncFrame 2 [4])).1
        opnAll ['r'] 56
      = ((handleMessage stC1 opnAll 7 1 ['r'] (mkSyncFrame 2 [4])).1, [])) ∧
    (sendsTo 2 (fireUpdateFlush
        (handleMessage stC1 opnAll 7 1 ['r'] (mkSyncFrame 2 [4])).1 opnAll ['r'] 57).2
      = (if opnAll 2 then updFor 2 ((alookup ['r']
          (handleMessage stC1 opnAll 7 1 ['r'] (mkSyncFrame 2 [4])).1.updateBuffers).getD [])
         else [])) := by
  have h := claim_C7_debounce stC1 opnAll 7 1 ['r'] [4] (by decide)
  exact ⟨h.1, h.2.1, h.2.2.1 56 (by decide), (h.2.2.2 57 2 (by decide)).1⟩

/-- Claim C8: a STEP1 frame is answered with a STEP2 frame — the diff
of the local document against the received fingerprint — sent to the
sender only, with no state change and no broadcast; a STEP2 frame is
merged into the local document with no reply and no broadcast. -/
theorem claim_C8_handshake (st : ServerState) (opn : ConnId → Bool) (now : Nat)
    (ws : ConnId) (roomName : RoomId) (sv u : Bytes) (hsv : sv ≠ []) (hu : u ≠ []) :
    handleMessage st opn now ws roomName (mkSyncFrame 0 sv)
      = (st, [Out.send ws (writeVarUint messageSync ++
          writeSyncStep2 ((alookup roomName st.docs).getD YDoc.empty) sv)]) ∧
    handleMessage st opn now ws roomName (mkSyncFrame 1 u)
      = ({ st with
            docs := aset roomName
              (YDoc.mk (((alookup roomName st.docs).getD YDoc.empty).updates ++ [u]))
              st.docs },
         []) := by
  constructor
  · unfold handleMessage
    rw [processMessage_step1Frame st opn now ws roomName sv hsv]
  · unfold handleMessage
    rw [processMessage_step2Frame st opn now ws roomName u hu]

theorem claim_C8_witness :
    handleMessage stC1 opnAll 0 1 ['r'] (mkSyncFrame 0 [9])
      = (stC1, [Out.send 1 (writeVarUint messageSync ++
          writeSyncStep2 ((alookup ['r'] stC1.docs).getD YDoc.empty) [9])]) ∧
    handleMessage stC1 opnAll 0 1 ['r'] (mkSyncFrame 1 [4])
      = ({ stC1 with
            docs := aset ['r']
              (YDoc.mk (((alookup ['r'] stC1.docs).getD YDoc.empty).updates ++ [[4]]))
              stC1.docs },
         []) :=
  claim_C8_handshake stC1 opnAll 0 1 ['r'] [9] [4] (by decide) (by decide)

/-! ## Which messages throw: branch-by-branch evaluation of the
message handler -/

theorem processMessage_top_none (st : ServerState) (opn : ConnId → Bool)
    (now : Nat) (ws : ConnId) (roomName : RoomId) (data : Bytes)
    (hrd : readVarUint data = none) :
    processMessage st opn now ws roomName data = Except.error () := by
  unfold processMessage
  rw [hrd]

theorem processMessage_unknown (st : ServerState) (opn : ConnId → Bool)
    (now : Nat) (ws : ConnId) (roomName : RoomId) (data : Bytes) (k : Nat)
    (r1 : Bytes) (hrd : readVarUint data = some (k, r1))
    (hk0 : k ≠ messageSync) (hk1 : k ≠ messageAwareness) :
    processMessage st opn now ws roomName data
      = Except.ok (st, [Out.warnUnknown k]) := by
  have hk0n : ¬ k = 0 := by simpa [messageSync] using hk0
  have hk1n : ¬ k = 1 := by simpa [messageAwareness] using hk1
  unfold processMessage
  rw [hrd]
  simp [hk0n, hk1n, messageSync, messageAwareness]

theorem processMessage_awareness_ok (st : ServerState) (opn : ConnId → Bool)
    (now : Nat) (ws : ConnId) (roomName : RoomId) (data r1 : Bytes)
    (hrd : readVarUint data = some (messageAwareness, r1)) :
    ∃ y, processMessage st opn now ws roomName data = Except.ok y := by
  unfold processMessage
  rw [hrd]
  dsimp only
  rw [if_neg (by decide), if_pos rfl]
  exact ⟨_, rfl⟩

theorem processMessage_sync_sub_none (st : ServerState) (opn : ConnId → Bool)
    (now : Nat) (ws : ConnId) (roomName : RoomId) (data r1 : Bytes)
    (hrd : readVarUint data = some (messageSync, r1))
    (hr1 : readVarUint r1 = none) :
    processMessage st opn now ws roomName data = Except.error () := by
  unfold processMessage
  rw [hrd]
  dsimp only
  rw [if_pos rfl, hr1]

theorem processMessage_sync_payload_none (st : ServerState) (opn : ConnId → Bool)
    (now : Nat) (ws : ConnId) (roomName : RoomId) (data r1 : Bytes)
    (sub : Nat) (r2 : Bytes)
    (hrd : readVarUint data = some (messageSync, r1))
    (hr1 : readVarUint r1 = some (sub, r2))
    (hsub : sub = 0 ∨ sub = 1 ∨ sub = 2)
    (hp : readVarUint8Array r2 = none) :
    processMessage st opn now ws roomName data = Except.error () := by
  unfold processMessage
  rw [hrd]
  dsimp only
  rw [if_pos rfl, hr1]
  dsimp only
  rcases hsub with h | h | h
  · subst h
    rw [if_pos rfl, hp]
  · subst h
    rw [if_neg (by omega), if_pos rfl, hp]
  · subst h
    rw [if_neg (by omega), if_neg (by omega), if_pos rfl, hp]

theorem processMessage_sync_engine_throw (st : ServerState) (opn : ConnId → Bool)
    (now : Nat) (ws : ConnId) (roomName : RoomId) (data r1 : Bytes)
    (sub : Nat) (r2 rest : Bytes)
    (hrd : readVarUint data = some (messageSync, r1))
    (hr1 : readVarUint r1 = some (sub, r2))
    (hsub : sub = 0 ∨ sub = 1 ∨ sub = 2)
    (hp : readVarUint8Array r2 = some ([], rest)) :
    processMessage st opn now ws roomName data = Except.error () := by
  unfold processMessage
  rw [hrd]
  dsimp only
  rw [if_pos rfl, hr1]
  dsimp only
  rcases hsub with h | h | h
  · subst h
    rw [if_pos rfl, hp]
    dsimp only
    simp [encodeStateAsUpdateE]
  · subst h
    rw [if_neg (by omega), if_pos rfl, hp]
    dsimp only
    simp [applyUpdateE]
  · subst h
    rw [if_neg (by omega), if_neg (by omega), if_pos rfl, hp]
    dsimp only
    simp [applyUpdateE]

theorem processMessage_sync_ok (st : ServerState) (opn : ConnId → Bool)
    (now : Nat) (ws : ConnId) (roomName : RoomId) (data r1 : Bytes)
    (sub : Nat) (r2 p rest : Bytes)
    (hrd : readVarUint data = some (messageSync, r1))
    (hr1 : readVarUint r1 = some (sub, r2))
    (hp : readVarUint8Array r2 = some (p, rest)) (hpne : p ≠ []) :
    ∃ y, processMessage st opn now ws roomName data = Except.ok y := by
  have hpe : p.isEmpty = false := by
    cases p with
    | nil => exact absurd rfl hpne
    | cons a l => rfl
  unfold processMessage
  rw [hrd]
  dsimp only
  rw [if_pos rfl, hr1]
  dsimp only
  by_cases h0 : sub = 0
  · subst h0
    rw [if_pos rfl, hp]
    dsimp only
    simp only [encodeStateAsUpdateE, hpe, Bool.false_eq_true, if_false]
    exact ⟨_, rfl⟩
  · by_cases h1 : sub = 1
    · subst h1
      rw [if_neg (by omega), if_pos rfl, hp]
      dsimp only
      simp only [applyUpdateE, hpe, Bool.false_eq_true, if_false]
      exact ⟨_, rfl⟩
    · by_cases h2 : sub = 2
      · subst h2
        rw [if_neg (by omega), if_neg (by omega), if_pos rfl, hp]
        dsimp only
        simp only [applyUpdateE, hpe, Bool.false_eq_true, if_false]
        exact ⟨_, rfl⟩
      · rw [if_neg h0, if_neg h1, if_neg h2]
        exact ⟨_, rfl⟩

theorem processMessage_sync_unknown_sub (st : ServerState) (opn : ConnId → Bool)
    (now : Nat) (ws : ConnId) (roomName : RoomId) (data r1 : Bytes)
    (sub : Nat) (r2 : Bytes)
    (hrd : readVarUint data = some (messageSync, r1))
    (hr1 : readVarUint r1 = some (sub, r2))
    (h0 : sub ≠ 0) (h1 : sub ≠ 1) (h2 : sub ≠ 2) :
    ∃ y, processMessage st opn now ws roomName data = Except.ok y := by
  unfold processMessage
  rw [hrd]
  dsimp only
  rw [if_pos rfl, hr1]
  dsimp only
  rw [if_neg h0, if_neg h1, if_neg h2]
  exact ⟨_, rfl⟩

/-- Exact characterization of the messages on which the handler throws:
the leading kind varuint is truncated, or the frame is a SYNC frame
whose sub-kind varuint is truncated, or whose STEP1/STEP2/UPDATE
payload is truncated, or whose parsed payload is one the document
engine throws on (empty, in the engine model).  All other messages are
processed without throwing. -/
theorem processMessage_error_iff (st : ServerState) (opn : ConnId → Bool)
    (now : Nat) (ws : ConnId) (roomName : RoomId) (data : Bytes) :
    (∃ e, processMessage st opn now ws roomName data = Except.error e) ↔
      (readVarUint data = none ∨
       ∃ r1, readVarUint data = some (messageSync, r1) ∧
         (readVarUint r1 = none ∨
          ∃ sub r2, readVarUint r1 = some (sub, r2) ∧
            (sub = 0 ∨ sub = 1 ∨ sub = 2) ∧
            (readVarUint8Array r2 = none ∨
             ∃ rest, readVarUint8Array r2 = some ([], rest)))) := by
  cases hrd : readVarUint data with
  | none =>
    rw [processMessage_top_none st opn now ws roomName data hrd]
    constructor
    · intro _
      exact Or.inl rfl
    · intro _
      exact ⟨(), rfl⟩
  | some pk =>
    obtain ⟨k, r1⟩ := pk
    by_cases hk0 : k = messageSync
    · subst hk0
      cases hr1 : readVarUint r1 with
      | none =>
        rw [processMessage_sync_sub_none st opn now ws roomName data r1 hrd hr1]
        constructor
        · intro _
          exact Or.inr ⟨r1, rfl, Or.inl hr1⟩
        · intro _
          exact ⟨(), rfl⟩
      | some ps =>
        obtain ⟨sub, r2⟩ := ps
        by_cases hsub : sub = 0 ∨ sub = 1 ∨ sub = 2
        · cases hp : readVarUint8Array r2 with
          | none =>
            rw [processMessage_sync_payload_none st opn now ws roomName data
              r1 sub r2 hrd hr1 hsub hp]
            constructor
            · intro _
              exact Or.inr ⟨r1, rfl, Or.inr ⟨sub, r2, hr1, hsub, Or.inl hp⟩⟩
            · intro _
              exact ⟨(), rfl⟩
          | some pp =>
            obtain ⟨p, rest⟩ := pp
            by_cases hpnil : p = []
            · subst hpnil
              rw [processMessage_sync_engine_throw st opn now ws roomName data
                r1 sub r2 rest hrd hr1 hsub hp]
              constructor
              · intro _
                exact Or.inr ⟨r1, rfl, Or.inr ⟨sub, r2, hr1, hsub, Or.inr ⟨rest, hp⟩⟩⟩
              · intro _
                exact ⟨(), rfl⟩
            · obtain ⟨y, hy⟩ := processMessage_sync_ok st opn now ws roomName data
                r1 sub r2 p rest hrd hr1 hp hpnil
              rw [hy]
              constructor
              · rintro ⟨e, he⟩
                exact Except.noConfusion he
              · rintro (h | ⟨r1x, h1, hinner⟩)
                · exact Option.noConfusion h
                · have hr1x : r1x = r1 :=
                    (congrArg Prod.snd (Option.some.inj h1)).symm
                  subst hr1x
                  rcases hinner with h2 | ⟨subx, r2x, h3, _, h5⟩
                  · rw [hr1] at h2
                    exact Option.noConfusion h2
                  · rw [hr1] at h3
                    have hs : sub = subx := congrArg Prod.fst (Option.some.inj h3)
                    have hr : r2 = r2x := congrArg Prod.snd (Option.some.inj h3)
                    subst hs
                    subst hr
                    rcases h5 with h5 | ⟨restx, h6⟩
                    · rw [hp] at h5
                      exact Option.noConfusion h5
                    · rw [hp] at h6
                      have hpn : p = [] := congrArg Prod.fst (Option.some.inj h6)
                      exact absurd hpn hpnil
        · push_neg at hsub
          obtain ⟨y, hy⟩ := processMessage_sync_unknown_sub st opn now ws roomName
            data r1 sub r2 hrd hr1 hsub.1 hsub.2.1 hsub.2.2
          rw [hy]
          constructor
          · rintro ⟨e, he⟩
            exact Except.noConfusion he
          · rintro (h | ⟨r1x, h1, hinner⟩)
            · exact Option.noConfusion h
            · have hr1x : r1x = r1 :=
                (congrArg Prod.snd (Option.some.inj h1)).symm
              subst hr1x
              rcases hinner with h2 | ⟨subx, r2x, h3, h4, _⟩
              · rw [hr1] at h2
                exact Option.noConfusion h2
              · rw [hr1] at h3
                have hsx : sub = subx := congrArg Prod.fst (Option.some.inj h3)
                subst hsx
                rcases h4 with h4 | h4 | h4
                · exact absurd h4 hsub.1
                · exact absurd h4 hsub.2.1
                · exact absurd h4 hsub.2.2
    · by_cases hk1 : k = messageAwareness
      · subst hk1
        obtain ⟨y, hy⟩ := processMessage_awareness_ok st opn now ws roomName
          data r1 hrd
        rw [hy]
        constructor
        · rintro ⟨e, he⟩
          exact Except.noConfusion he
        · rintro (h | ⟨r1x, h1, _⟩)
          · exact Option.noConfusion h
          · have hms : messageAwareness = messageSync :=
              congrArg Prod.fst (Option.some.inj h1)
            exact absurd hms (by decide)
      · obtain hy := processMessage_unknown st opn now ws roomName data k r1
          hrd hk0 hk1
        rw [hy]
        constructor
        · rintro ⟨e, he⟩
          exact Except.noConfusion he
        · rintro (h | ⟨r1x, h1, _⟩)
          · exact Option.noConfusion h
          · have hks : k = messageSync :=
              congrArg Prod.fst (Option.some.inj h1)
            exact absurd hks hk0

/-- Claim C9: for every inbound message on which handling throws — and
those are exactly the messages whose leading kind varuint is truncated,
or SYNC frames with a truncated sub-kind varuint, a truncated
STEP1/STEP2/UPDATE payload, or a payload the document engine throws on
— the message is dropped with only the JSON error reply, and the whole
server state (registries, document, buffers, timers) is exactly as
before; every message of unknown top-level kind is likewise dropped
with only a warning and no state change. -/
theorem claim_C9_error_isolation (st : ServerState) (opn : ConnId → Bool)
    (now : Nat) (ws : ConnId) (roomName : RoomId) :
    (∀ data e, processMessage st opn now ws roomName data = Except.error e →
       handleMessage st opn now ws roomName data = (st, [Out.sendErrText ws])) ∧
    (∀ data, (∃ e, processMessage st opn now ws roomName data = Except.error e) ↔
       (readVarUint data = none ∨
        ∃ r1, readVarUint data = some (messageSync, r1) ∧
          (readVarUint r1 = none ∨
           ∃ sub r2, readVarUint r1 = some (sub, r2) ∧
             (sub = 0 ∨ sub = 1 ∨ sub = 2) ∧
             (readVarUint8Array r2 = none ∨
              ∃ rest, readVarUint8Array r2 = some ([], rest))))) ∧
    (∀ data k r1, readVarUint data = some (k, r1) →
       k ≠ messageSync → k ≠ messageAwareness →
       handleMessage st opn now ws roomName data = (st, [Out.warnUnknown k])) := by
  refine ⟨?_, ?_, ?_⟩
  · intro data e he
    unfold handleMessage
    rw [he]
  · intro data
    exact processMessage_error_iff st opn now ws roomName data
  · intro data k r1 hrd hk0 hk1
    unfold handleMessage
    rw [processMessage_unknown st opn now ws roomName data k r1 hrd hk0 hk1]

theorem claim_C9_witness :
    handleMessage stC1 opnAll 0 1 ['r'] [128] = (stC1, [Out.sendErrText 1]) ∧
    handleMessage stC1 opnAll 0 1 ['r'] [0] = (stC1, [Out.sendErrText 1]) ∧
    handleMessage stC1 opnAll 0 1 ['r'] [0, 2, 5] = (stC1, [Out.sendErrText 1]) ∧
    handleMessage stC1 opnAll 0 1 ['r'] [0, 2, 0] = (stC1, [Out.sendErrText 1]) ∧
    (∃ e, processMessage stC1 opnAll 0 1 ['r'] [0, 1, 0] = Except.error e) ∧
    handleMessage stC1 opnAll 0 1 ['r'] [5, 0] = (stC1, [Out.warnUnknown 5]) := by
  have h := claim_C9_error_isolation stC1 opnAll 0 1 ['r']
  refine ⟨h.1 [128] () rfl, h.1 [0] () rfl, h.1 [0, 2, 5] () rfl,
    h.1 [0, 2, 0] () rfl, (h.2.1 [0, 1, 0]).mpr ?_,
    h.2.2 [5, 0] 5 [0] rfl (by decide) (by decide)⟩
  exact Or.inr ⟨[1, 0], rfl,
    Or.inr ⟨1, [0], rfl, Or.inr (Or.inl rfl), Or.inr ⟨[], rfl⟩⟩⟩

theorem handleConnection_fresh (st : ServerState) (path : List Char) (ws2 : ConnId)
    (roomName : RoomId) (hm : matchRoomPath path = some roomName)
    (hd : alookup roomName st.docs = none) :
    alookup roomName (handleConnection st path ws2).1.docs = some YDoc.empty := by
  unfold handleConnection
  rw [hm]
  dsimp only
  rw [hd]
  simp [alookup_aset_self]

/-- Claim C5: when the last connection of a room closes, the document
handle, the connection-set entry, both buffers and both flush timers
are all released in that same step, the heartbeat is cancelled, and a
subsequent connection to the same room id starts from a fresh empty
document. -/
theorem claim_C5_room_gc (st : ServerState) (ws : ConnId) (roomName : RoomId)
    (hlast : ((alookup roomName st.connections).getD []).filter
      (fun c => decide (c ≠ ws)) = [])
    (hr1 : roomName ≠ [])
    (hr2 : '\n' ∉ roomName) :
    alookup roomName (handleClose st ws roomName).docs = none ∧
    alookup roomName (handleClose st ws roomName).connections = none ∧
    alookup roomName (handleClose st ws roomName).updateBuffers = none ∧
    alookup roomName (handleClose st ws roomName).awarenessBuffers = none ∧
    alookup roomName (handleClose st ws roomName).flushTimers = none ∧
    alookup roomName (handleClose st ws roomName).awarenessFlushTimers = none ∧
    ws ∉ (handleClose st ws roomName).heartbeats ∧
    (∀ ws2, alookup roomName
        (handleConnection (handleClose st ws roomName) ('/' :: roomName) ws2).1.docs
      = some YDoc.empty) := by
  have hclose : handleClose st ws roomName = { st with
      docs := aerase roomName st.docs,
      connections := aerase roomName (aset roomName [] st.connections),
      heartbeats := st.heartbeats.filter (fun c => decide (c ≠ ws)),
      updateBuffers := aerase roomName st.updateBuffers,
      flushTimers := aerase roomName st.flushTimers,
      awarenessBuffers := aerase roomName st.awarenessBuffers,
      awarenessFlushTimers := aerase roomName st.awarenessFlushTimers } := by
    unfold handleClose
    rw [hlast]
    simp
  have hmatch : matchRoomPath ('/' :: roomName) = some roomName := by
    unfold matchRoomPath
    have : roomName.isEmpty = false := by
      cases hx : roomName with
      | nil => exact absurd hx hr1
      | cons a l => rfl
    simp [this, hr2]
  refine ⟨?_, ?_, ?_, ?_, ?_, ?_, ?_, ?_⟩
  · rw [hclose]
    exact alookup_aerase_self roomName st.docs
  · rw [hclose]
    exact alookup_aerase_self roomName _
  · rw [hclose]
    exact alookup_aerase_self roomName _
  · rw [hclose]
    exact alookup_aerase_self roomName _
  · rw [hclose]
    exact alookup_aerase_self roomName _
  · rw [hclose]
    exact alookup_aerase_self roomName _
  · rw [hclose]
    simp [List.mem_filter]
  · intro ws2
    refine handleConnection_fresh _ _ ws2 roomName hmatch ?_
    rw [hclose]
    exact alookup_aerase_self roomName st.docs

/-- Fixture for the C5 witness: room `r` holds one connection (9), a
non-empty document, pending entries in both buffers and armed timers. -/
def stC5 : ServerState :=
  ⟨[(['r'], YDoc.mk [[3]])], [(['r'], [9])], [9],
   [(['r'], [(9, [1])])], [(['r'], 42)], [(['r'], [(9, [2])])], [(['r'], 99)]⟩

theorem claim_C5_witness :
    alookup ['r'] (handleClose stC5 9 ['r']).docs = none ∧
    alookup ['r'] (handleClose stC5 9 ['r']).connections = none ∧
    alookup ['r'] (handleClose stC5 9 ['r']).updateBuffers = none ∧
    alookup ['r'] (handleClose stC5 9 ['r']).awarenessBuffers = none ∧
    alookup ['r'] (handleClose stC5 9 ['r']).flushTimers = none ∧
    alookup ['r'] (handleClose stC5 9 ['r']).awarenessFlushTimers = none ∧
    9 ∉ (handleClose stC5 9 ['r']).heartbeats ∧
    alookup ['r']
        (handleConnection (handleClose stC5 9 ['r']) ('/' :: ['r']) 11).1.docs
      = some YDoc.empty := by
  have h := claim_C5_room_gc stC5 9 ['r'] (by decide) (by decide) (by decide)
  exact ⟨h.1, h.2.1, h.2.2.1, h.2.2.2.1, h.2.2.2.2.1, h.2.2.2.2.2.1,
    h.2.2.2.2.2.2.1, h.2.2.2.2.2.2.2 11⟩

/-- Claim C2 counterexample: the multi-segment path `/a/b` is not of
the single-segment form `/<roomId>`, yet the connection is admitted —
a registry entry for room id `a/b` is created holding the connection,
and the initial STEP1 frame is sent instead of a 1008 close. -/
theorem claim_C2_counterexample :
    isSingleSegmentPath ['/', 'a', '/', 'b'] = false ∧
    (handleConnection ServerState.init ['/', 'a', '/', 'b'] 7).1.connections
      = [(['a', '/', 'b'], [7])] ∧
    (handleConnection ServerState.init ['/', 'a', '/', 'b'] 7).2
      = [Out.send 7 (writeVarUint messageSync ++ writeSyncStep1 YDoc.empty)] := by
  refine ⟨by decide, by decide, rfl⟩

theorem mem_addConn (c : ConnId) (l : List ConnId) : c ∈ addConn c l := by
  unfold addConn
  by_cases h : c ∈ l <;> simp [h]

/-- Claim C2 (amended): admission fails — close 1008, state untouched —
exactly when the path fails the regex `^\/(.+)$`, i.e. it is not a
leading slash followed by a nonempty line-terminator-free remainder.
Any path of that shape is admitted, with the entire remainder (slashes
included) as room id: the connection joins that room's set and receives
the STEP1 frame.  In particular every single-segment path (which from a
parsed URL contains no raw newline) is matched. -/
theorem claim_C2_path_check (st : ServerState) (path : List Char) (ws : ConnId) :
    (matchRoomPath path = none →
       handleConnection st path ws = (st, [Out.closeConn ws 1008])) ∧
    (∀ roomName, matchRoomPath path = some roomName →
       ws ∈ ((alookup roomName (handleConnection st path ws).1.connections).getD []) ∧
       (handleConnection st path ws).2
         = [Out.send ws (writeVarUint messageSync ++ writeSyncStep1
             ((alookup roomName (handleConnection st path ws).1.docs).getD YDoc.empty))]) ∧
    (isSingleSegmentPath path = true →
       path.all (fun ch => decide (ch ≠ '\n')) = true →
       (matchRoomPath path).isSome = true) := by
  refine ⟨?_, ?_, ?_⟩
  · intro h
    unfold handleConnection
    rw [h]
  · intro roomName hm
    unfold handleConnection
    rw [hm]
    constructor
    · rw [alookup_aset_self]
      exact mem_addConn ws _
    · rfl
  · intro hs hn
    cases path with
    | nil => simp [isSingleSegmentPath] at hs
    | cons c rest =>
      simp only [isSingleSegmentPath, Bool.and_eq_true, decide_eq_true_eq,
        Bool.not_eq_true', List.isEmpty_eq_false] at hs
      simp only [List.all_cons, Bool.and_eq_true] at hn
      unfold matchRoomPath
      have hre : rest.isEmpty = false := by
        cases hx : rest with
        | nil => exact absurd hx hs.1.2
        | cons a l => rfl
      simp only [hs.1.1, hre, Bool.false_eq_true, if_false, if_true]
      simp
      intro x hx
      have := List.all_eq_true.mp hn.2 x hx
      simpa using this

def stC2 : ServerState := ServerState.init

theorem claim_C2_witness :
    handleConnection stC2 ['x'] 5 = (stC2, [Out.closeConn 5 1008]) ∧
    5 ∈ ((alookup ['a'] (handleConnection stC2 ['/', 'a'] 5).1.connections).getD []) ∧
    (matchRoomPath ['/', 'a']).isSome = true :=
  ⟨(claim_C2_path_check stC2 ['x'] 5).1 (by decide),
   ((claim_C2_path_check stC2 ['/', 'a'] 5).2.1 ['a'] (by decide)).1,
   (claim_C2_path_check stC2 ['/', 'a'] 5).2.2 (by decide) (by decide)⟩

/-- Fixture for the C3 counterexample: room `r` with three open
connections; connection 1 sends presence payload A = [7], then
connection 2 sends presence payload B = [8], both within one window. -/
def stC3 : ServerState :=
  ⟨[(['r'], YDoc.empty)], [(['r'], [1, 2, 3])], [1, 2, 3], [], [], [], []⟩

def stC3a : ServerState :=
  (handleMessage stC3 opnAll 0 1 ['r'] (mkAwarenessFrame [7])).1

def stC3b : ServerState :=
  (handleMessage stC3a opnAll 0 2 ['r'] (mkAwarenessFrame [8])).1

/-- Claim C3 counterexample: sender 1's presence for destination 3 is
pending in the buffer, destination 3 stays open, yet the flush delivers
only sender 2's later presence to 3 — the pending value of sender 1 was
discarded because a different sender's presence arrived, contradicting
the claimed per-destination-per-sender retention. -/
theorem claim_C3_counterexample :
    (3, mkAwarenessFrame [7]) ∈ (alookup ['r'] stC3b.awarenessBuffers).getD [] ∧
    sendsTo 3 (flushAwarenessBuffer stC3b opnAll ['r']).2 = [mkAwarenessFrame [8]] ∧
    mkAwarenessFrame [7] ≠ mkAwarenessFrame [8] := by
  refine ⟨by decide, by decide, by decide⟩

/-- Claim C3 (amended): the presence flush retains at most one pending
message per destination — the latest buffered one regardless of which
sender produced it — so presence values A1, A2, A3 sent by one sender
within the debounce window collapse to A3 at every open peer, but a
pending value for a destination is also superseded when a different
sender's presence for that destination arrives later; a flush of a
nonempty buffer leaves it empty. -/
theorem claim_C3_presence_latest (st : ServerState) (opn : ConnId → Bool)
    (roomName : RoomId) (c : ConnId)
    (hne : (alookup roomName st.awarenessBuffers).getD [] ≠ []) :
    sendsTo c (flushAwarenessBuffer st opn roomName).2
      = (if opn c
         then lastOr (updFor c ((alookup roomName st.awarenessBuffers).getD [])) []
         else []) ∧
    alookup roomName (flushAwarenessBuffer st opn roomName).1.awarenessBuffers
      = some [] :=
  ⟨flushAwarenessBuffer_sendsTo st opn roomName c,
   flushAwarenessBuffer_empties st opn roomName hne⟩

theorem claim_C3_witness :
    sendsTo 3 (flushAwarenessBuffer stC3b opnAll ['r']).2
      = (if opnAll 3
         then lastOr (updFor 3 ((alookup ['r'] stC3b.awarenessBuffers).getD [])) []
         else []) ∧
    alookup ['r'] (flushAwarenessBuffer stC3b opnAll ['r']).1.awarenessBuffers
      = some [] :=
  claim_C3_presence_latest stC3b opnAll ['r'] 3 (by decide)

/-- Fixture for the C4 counterexample: room `r` with a single
connection 1, a live document, an armed update-flush timer and an armed
awareness-flush timer. -/
def stC4 : ServerState :=
  ⟨[(['r'], YDoc.empty)], [(['r'], [1])], [1],
   [(['r'], [])], [(['r'], 10)], [], [(['r'], 20)]⟩

/-- Claim C4 counterexample: a transport error on the room's only
connection does not tear the room down — the document and both timers
survive — whereas a graceful close of the same connection releases
everything; the two teardown paths are not identical. -/
theorem claim_C4_counterexample :
    (handleError stC4 1 ['r']).docs = [(['r'], YDoc.empty)] ∧
    (handleError stC4 1 ['r']).flushTimers = [(['r'], 10)] ∧
    (handleError stC4 1 ['r']).awarenessFlushTimers = [(['r'], 20)] ∧
    (handleClose stC4 1 ['r']).docs = [] ∧
    (handleClose stC4 1 ['r']).flushTimers = [] ∧
    handleError stC4 1 ['r'] ≠ handleClose stC4 1 ['r'] := by
  refine ⟨by decide, by decide, by decide, by decide, by decide, by decide⟩

/-- Claim C4 (amended): a transport error removes the connection from
its room's set and cancels its heartbeat exactly as a close does, and
the two paths coincide whenever the room remains non-empty; but the
empty-room teardown (document, buffers, timers) runs only on the close
path — an error that empties a room leaves the room's state registered
until a close event arrives. -/
theorem claim_C4_error_teardown (st : ServerState) (ws : ConnId) (roomName : RoomId) :
    (handleError st ws roomName).connections
      = aset roomName (((alookup roomName st.connections).getD []).filter
          (fun c => decide (c ≠ ws))) st.connections ∧
    (handleError st ws roomName).heartbeats
      = st.heartbeats.filter (fun c => decide (c ≠ ws)) ∧
    (handleError st ws roomName).docs = st.docs ∧
    (handleError st ws roomName).updateBuffers = st.updateBuffers ∧
    (handleError st ws roomName).awarenessBuffers = st.awarenessBuffers ∧
    (handleError st ws roomName).flushTimers = st.flushTimers ∧
    (handleError st ws roomName).awarenessFlushTimers = st.awarenessFlushTimers ∧
    (((alookup roomName st.connections).getD []).filter (fun c => decide (c ≠ ws)) ≠ [] →
       handleError st ws roomName = handleClose st ws roomName) := by
  refine ⟨rfl, rfl, rfl, rfl, rfl, rfl, rfl, ?_⟩
  intro h
  have hne : (((alookup roomName st.connections).getD []).filter
      (fun c => decide (c ≠ ws))).isEmpty = false := by
    cases hx : ((alookup roomName st.connections).getD []).filter
        (fun c => decide (c ≠ ws)) with
    | nil => exact absurd hx h
    | cons a l => rfl
  simp only [handleError, handleClose, hne, Bool.false_eq_true, if_false]

/-- Fixture for the C4 witness: room `r` with two connections, so the
room stays non-empty after connection 1 fails. -/
def stC4b : ServerState :=
  ⟨[(['r'], YDoc.empty)], [(['r'], [1, 2])], [1, 2],
   [(['r'], [])], [(['r'], 10)], [], [(['r'], 20)]⟩

theorem claim_C4_witness :
    (handleError stC4b 1 ['r']).docs = stC4b.docs ∧
    handleError stC4b 1 ['r'] = handleClose stC4b 1 ['r'] :=
  ⟨(claim_C4_error_teardown stC4b 1 ['r']).2.2.1,
   (claim_C4_error_teardown stC4b 1 ['r']).2.2.2.2.2.2.2 (by decide)⟩

/-! ## Refinement: batched fan-out vs immediate broadcast (claim C10)

A single-room run is a sequence of inbound UPDATE frames (each
`REv.msg s u` is the frame `mkSyncFrame 2 u` from sender `s`, the
payload possibly malformed) interleaved with update-buffer flushes.
The batched server buffers and flushes; the earlier implementation
broadcasts immediately and has no flush. -/

inductive REv where
  | msg (sender : ConnId) (payload : Bytes)
  | flush

/-- One event of the batched implementation. -/
def stepB (opn : ConnId → Bool) (now : Nat) (roomName : RoomId)
    (st : ServerState) : REv → ServerState × List Out
  | REv.msg s u => handleMessage st opn now s roomName (mkSyncFrame 2 u)
  | REv.flush => flushUpdateBuffer st opn roomName

/-- Run of the batched implementation, accumulating outputs. -/
def runB (opn : ConnId → Bool) (now : Nat) (roomName : RoomId) :
    ServerState × List Out → List REv → ServerState × List Out
  | acc, [] => acc
  | acc, ev :: rest =>
    let r := stepB opn now roomName acc.1 ev
    runB opn now roomName (r.1, acc.2 ++ r.2) rest

/-- One event of the immediate-broadcast implementation (it has no
update buffer, so a flush event does nothing). -/
def stepI (opn : ConnId → Bool) (roomName : RoomId)
    (st : ServerState) : REv → ServerState × List Out
  | REv.msg s u => handleMessageImm st opn s roomName (mkSyncFrame 2 u)
  | REv.flush => (st, [])

/-- Run of the immediate-broadcast implementation. -/
def runI (opn : ConnId → Bool) (roomName : RoomId) :
    ServerState × List Out → List REv → ServerState × List Out
  | acc, [] => acc
  | acc, ev :: rest =>
    let r := stepI opn roomName acc.1 ev
    runI opn roomName (r.1, acc.2 ++ r.2) rest

theorem processMessage_updateFrame_nil (st : ServerState) (opn : ConnId → Bool)
    (now : Nat) (ws : ConnId) (roomName : RoomId) :
    processMessage st opn now ws roomName (mkSyncFrame 2 []) = Except.error () := by
  have h3 : readVarUint8Array (writeVarUint8Array ([] : Bytes)) = some ([], []) := by
    simpa using readVarUint8Array_writeVarUint8Array [] []
  unfold processMessage
  rw [show mkSyncFrame 2 [] =
      writeVarUint 0 ++ (writeVarUint 2 ++ writeVarUint8Array []) from rfl]
  rw [readVarUint_writeVarUint]
  simp [readVarUint_writeVarUint, h3, messageSync, messageAwareness, applyUpdateE]

theorem processMessageImm_updateFrame_nil (st : ServerState) (opn : ConnId → Bool)
    (ws : ConnId) (roomName : RoomId) :
    processMessageImm st opn ws roomName (mkSyncFrame 2 []) = Except.error () := by
  have h3 : readVarUint8Array (writeVarUint8Array ([] : Bytes)) = some ([], []) := by
    simpa using readVarUint8Array_writeVarUint8Array [] []
  unfold processMessageImm
  rw [show mkSyncFrame 2 [] =
      writeVarUint 0 ++ (writeVarUint 2 ++ writeVarUint8Array []) from rfl]
  rw [readVarUint_writeVarUint]
  simp [readVarUint_writeVarUint, h3, messageSync, messageAwareness, applyUpdateE]

/-- One inbound UPDATE frame preserves the correspondence between the
batched and the immediate implementation: documents and connection sets
stay equal, and the batched side's new output plus its pending buffer
equal the old pending buffer plus the immediate side's new output,
destination by destination. -/
theorem msg_equiv (stB stI : ServerState) (opn : ConnId → Bool) (now : Nat)
    (roomName : RoomId) (s : ConnId) (u : Bytes)
    (hdocs : stB.docs = stI.docs) (hconns : stB.connections = stI.connections) :
    (handleMessage stB opn now s roomName (mkSyncFrame 2 u)).1.docs
      = (handleMessageImm stI opn s roomName (mkSyncFrame 2 u)).1.docs ∧
    (handleMessage stB opn now s roomName (mkSyncFrame 2 u)).1.connections
      = (handleMessageImm stI opn s roomName (mkSyncFrame 2 u)).1.connections ∧
    ∀ c, sendsTo c (handleMessage stB opn now s roomName (mkSyncFrame 2 u)).2 ++
         updFor c ((alookup roomName
           (handleMessage stB opn now s roomName (mkSyncFrame 2 u)).1.updateBuffers).getD [])
       = updFor c ((alookup roomName stB.updateBuffers).getD []) ++
         sendsTo c (handleMessageImm stI opn s roomName (mkSyncFrame 2 u)).2 := by
  by_cases hu : u = []
  · subst hu
    have hB : handleMessage stB opn now s roomName (mkSyncFrame 2 [])
        = (stB, [Out.sendErrText s]) := by
      unfold handleMessage
      rw [processMessage_updateFrame_nil]
    have hI : handleMessageImm stI opn s roomName (mkSyncFrame 2 [])
        = (stI, [Out.sendErrText s]) := by
      unfold handleMessageImm
      rw [processMessageImm_updateFrame_nil]
    rw [hB, hI]
    exact ⟨hdocs, hconns, fun c => by simp⟩
  · have hB : handleMessage stB opn now s roomName (mkSyncFrame 2 u) =
        ({ stB with
            docs := aset roomName
              (YDoc.mk (((alookup roomName stB.docs).getD YDoc.empty).updates ++ [u]))
              stB.docs,
            updateBuffers := aset roomName
              (((alookup roomName stB.updateBuffers).getD []) ++
                (((alookup roomName stB.connections).getD []).filter
                  (fun c => decide (c ≠ s) && opn c)).map (fun c => (c, mkSyncFrame 2 u)))
              stB.updateBuffers,
            flushTimers := aset roomName (now + FLUSH_INTERVAL) stB.flushTimers },
         []) := by
      unfold handleMessage
      rw [processMessage_updateFrame stB opn now s roomName u hu]
    have hI : handleMessageImm stI opn s roomName (mkSyncFrame 2 u) =
        ({ stI with
            docs := aset roomName
              (YDoc.mk (((alookup roomName stI.docs).getD YDoc.empty).updates ++ [u]))
              stI.docs },
         (((alookup roomName stI.connections).getD []).filter
           (fun c => decide (c ≠ s) && opn c)).map
             (fun c => Out.send c (mkSyncFrame 2 u))) := by
      unfold handleMessageImm
      rw [processMessageImm_updateFrame stI opn s roomName u hu]
    rw [hB, hI]
    refine ⟨by rw [hdocs], hconns, ?_⟩
    intro c
    dsimp only
    rw [alookup_aset_self]
    simp only [Option.getD_some, sendsTo_nil, List.nil_append]
    rw [updFor_append, updFor_map_pair, hconns]

theorem flushUpdateBuffer_pending_nil (st : ServerState) (opn : ConnId → Bool)
    (roomName : RoomId) :
    (alookup roomName (flushUpdateBuffer st opn roomName).1.updateBuffers).getD [] = [] := by
  by_cases h : (alookup roomName st.updateBuffers).getD [] = []
  · unfold flushUpdateBuffer
    simp [h]
  · rw [flushUpdateBuffer_empties st opn roomName h]
    rfl

/-- The run-level correspondence, by induction over the event list. -/
theorem runBI_equiv (opn : ConnId → Bool) (now : Nat) (roomName : RoomId)
    (hopen : ∀ c, opn c = true) :
    ∀ evs : List REv, ∀ stB stI : ServerState, ∀ outsB outsI : List Out,
      stB.docs = stI.docs → stB.connections = stI.connections →
      (∀ c, sendsTo c outsB ++ updFor c ((alookup roomName stB.updateBuffers).getD [])
         = sendsTo c outsI) →
      (runB opn now roomName (stB, outsB) evs).1.docs
        = (runI opn roomName (stI, outsI) evs).1.docs ∧
      (runB opn now roomName (stB, outsB) evs).1.connections
        = (runI opn roomName (stI, outsI) evs).1.connections ∧
      (∀ c, sendsTo c (runB opn now roomName (stB, outsB) evs).2 ++
          updFor c ((alookup roomName
            (runB opn now roomName (stB, outsB) evs).1.updateBuffers).getD [])
        = sendsTo c (runI opn roomName (stI, outsI) evs).2) := by
  intro evs
  induction evs with
  | nil =>
    intro stB stI outsB outsI hd hc hinv
    exact ⟨hd, hc, hinv⟩
  | cons ev rest ih =>
    intro stB stI outsB outsI hd hc hinv
    cases ev with
    | msg s u =>
      have hm := msg_equiv stB stI opn now roomName s u hd hc
      simp only [runB, runI, stepB, stepI]
      apply ih
      · exact hm.1
      · exact hm.2.1
      · intro c
        rw [sendsTo_append, sendsTo_append, List.append_assoc, hm.2.2 c,
          ← List.append_assoc, hinv c]
    | flush =>
      simp only [runB, runI, stepB, stepI]
      have hst := flushUpdateBuffer_state stB opn roomName
      apply ih
      · exact hst.1.trans hd
      · exact hst.2.1.trans hc
      · intro c
        rw [sendsTo_append, List.append_assoc]
        have h1 : sendsTo c (flushUpdateBuffer stB opn roomName).2
            = updFor c ((alookup roomName stB.updateBuffers).getD []) := by
          rw [flushUpdateBuffer_sendsTo]
          simp [hopen c]
        have h2 : updFor c ((alookup roomName
            (flushUpdateBuffer stB opn roomName).1.updateBuffers).getD []) = [] := by
          rw [flushUpdateBuffer_pending_nil]
          rfl
        rw [h1, h2, List.append_nil, hinv c, List.append_nil]

theorem runB_append (opn : ConnId → Bool) (now : Nat) (roomName : RoomId) :
    ∀ (l1 l2 : List REv) (acc : ServerState × List Out),
      runB opn now roomName acc (l1 ++ l2)
        = runB opn now roomName (runB opn now roomName acc l1) l2 := by
  intro l1
  induction l1 with
  | nil =>
    intro l2 acc
    rfl
  | cons ev rest ih =>
    intro l2 acc
    simp only [List.cons_append, runB]
    exact ih l2 _

theorem runI_append (opn : ConnId → Bool) (roomName : RoomId) :
    ∀ (l1 l2 : List REv) (acc : ServerState × List Out),
      runI opn roomName acc (l1 ++ l2)
        = runI opn roomName (runI opn roomName acc l1) l2 := by
  intro l1
  induction l1 with
  | nil =>
    intro l2 acc
    rfl
  | cons ev rest ih =>
    intro l2 acc
    simp only [List.cons_append, runI]
    exact ih l2 _

/-- Claim C10: for a single-room run in which every destination stays
open, processing any sequence of inbound UPDATE frames through the
batched implementation and then flushing delivers to every destination
exactly the same message sequence, in the same per-destination order,
as the earlier immediate-broadcast implementation produces on the same
frame sequence — batching changes timing only. -/
theorem claim_C10_batched_refines_immediate (st : ServerState)
    (opn : ConnId → Bool) (now : Nat) (roomName : RoomId) (evs : List REv)
    (hopen : ∀ c, opn c = true)
    (hbuf : (alookup roomName st.updateBuffers).getD [] = []) :
    ∀ c, sendsTo c (runB opn now roomName (st, []) (evs ++ [REv.flush])).2
       = sendsTo c (runI opn roomName (st, []) evs).2 := by
  intro c
  have h := runBI_equiv opn now roomName hopen (evs ++ [REv.flush]) st st [] []
    rfl rfl (by
      intro c2
      simp [hbuf, updFor])
  have h3 := h.2.2 c
  have hpend : (alookup roomName
      (runB opn now roomName (st, []) (evs ++ [REv.flush])).1.updateBuffers).getD []
      = [] := by
    rw [runB_append]
    simp only [runB, stepB]
    exact flushUpdateBuffer_pending_nil _ opn roomName
  rw [hpend] at h3
  have hIflush : runI opn roomName (st, []) (evs ++ [REv.flush])
      = ((runI opn roomName (st, []) evs).1,
         (runI opn roomName (st, []) evs).2 ++ []) := by
    rw [runI_append]
    rfl
  rw [hIflush] at h3
  simpa [updFor] using h3

/-- Fixture for the C10 witness: room `r`, connections 1 2 3, all
open; senders 1 and 2 each contribute one UPDATE, with a flush in
between. -/
def evsC10 : List REv := [REv.msg 1 [4], REv.flush, REv.msg 2 [6]]

theorem claim_C10_witness :
    sendsTo 3 (runB opnAll 0 ['r'] (stC3, []) (evsC10 ++ [REv.flush])).2
      = sendsTo 3 (runI opnAll ['r'] (stC3, []) evsC10).2 :=
  claim_C10_batched_refines_immediate stC3 opnAll 0 ['r'] evsC10
    (fun c => rfl) (by decide) 3

end Yjs
